import Mathlib

/-!
# Posix signal support of the thread suspend engine

A shallow embedding of `mono/utils/mono-threads-posix-signals.c`.

Configuration embedded: `USE_POSIX_BACKEND`, `SIGRTMIN` defined, neither
`HOST_ANDROID` nor `__OpenBSD__`, `MONO_ARCH_HAS_MONO_CONTEXT`.

Conventions:
* signal numbers are `Int` (the C `int`, with `-1` as the "unset" value);
* `sa_flags` is the bit pattern of the C `int`, a `Nat`, so `|` is `|||`;
* pointers that the code only tests against `NULL` are `Nat` with `0 = NULL`;
* constants of `<signal.h>` are fields of `Platform`, and so is what the C
  library and the kernel do outside the file: the signals `sigfillset` leaves
  out, and the mask and flags a table entry holds of those passed to
  `sigaction`;
* a handler run yields a `Result`: how it ended, the state it left, and the
  calls of collaborators it made, in order;
* what happens on the thread during one `sigsuspend` (nested deliveries,
  stores of other threads) is a `Wake`, a function on the thread record.

Not embedded: the `THREADS_SUSPEND_DEBUG` lines, errno save and restore,
failure of `malloc`, and `ml_signal_generic_handler`, the older dispatch
routine that no installation path refers to.
-/

namespace MonoPosixSignals

/-! ## Data model -/

/-- Values a handler slot of `struct sigaction` can hold. `sa_handler` and
`sa_sigaction` share storage, so one value serves both. -/
inductive Handler where
  /-- The null pointer `SIG_DFL`. -/
  | SIG_DFL
  /-- The constant `SIG_IGN`, not a callable address. -/
  | SIG_IGN
  | suspend_signal_handler
  | restart_signal_handler
  /-- The dispatch trampoline. -/
  | ml_v2_signal_generic_handler
  /-- Any other function, identified by its address. -/
  | fn (addr : Nat)
  deriving DecidableEq, Repr

/-- A `sigset_t`: either the listed numbers, or every number but the listed. -/
inductive SigSet where
  | only (members : List Int)
  | allBut (excluded : List Int)
  deriving DecidableEq, Repr

def sigemptyset : SigSet := .only []

def sigismember : SigSet → Int → Bool
  | .only l, s => decide (s ∈ l)
  | .allBut l, s => !decide (s ∈ l)

def sigaddset : SigSet → Int → SigSet
  | .only l, s => .only (s :: l)
  | .allBut l, s => .allBut (l.filter (fun x => !decide (x = s)))

def sigdelset : SigSet → Int → SigSet
  | .only l, s => .only (l.filter (fun x => !decide (x = s)))
  | .allBut l, s => .allBut (s :: l)

/-- The set `blocked` with the members of `set` removed (`SIG_UNBLOCK`). -/
def sig_unblock : SigSet → SigSet → SigSet
  | .only a, .only b => .only (a.filter (fun x => !decide (x ∈ b)))
  | .only a, .allBut b => .only (a.filter (fun x => decide (x ∈ b)))
  | .allBut a, .only b => .allBut (a ++ b)
  | .allBut a, .allBut b => .only (b.filter (fun x => !decide (x ∈ a)))

/-- Constants of the host's signal header, and what the C library and the
kernel do with the sets and flags handed to them. -/
structure Platform where
  /-- First real-time signal number. -/
  SIGRTMIN : Nat
  /-- Last real-time signal number. -/
  SIGRTMAX : Nat
  /-- Flag bit `SA_SIGINFO`. -/
  SA_SIGINFO : Nat
  /-- Flag bit `SA_RESTART`. -/
  SA_RESTART : Nat
  /-- Signal numbers for which `sigaction` accepts a new disposition
  (it returns `-1` for every other number). -/
  sigaction_valid : Int → Bool
  /-- Signal numbers the C library keeps for itself: `sigfillset` leaves them
  out of the set it builds. -/
  libc_reserved : List Int
  /-- The flags an entry of the kernel's table holds, as a later `sigaction`
  reads them, after `sigaction` was passed the given flags. -/
  kernel_flags : Nat → Nat
  /-- The mask an entry of the kernel's table holds, as a later `sigaction`
  reads it, after `sigaction` was passed the given mask. -/
  kernel_mask : SigSet → SigSet

/-- The set `sigfillset` builds: every signal but those the C library keeps. -/
def sigfillset (p : Platform) : SigSet := .allBut p.libc_reserved

/-- The type `struct sigaction`. -/
structure Sigaction where
  sa_sigaction : Handler
  sa_mask : SigSet
  sa_flags : Nat
  deriving DecidableEq, Repr

/-- The `sa_handler` view of the shared handler slot. -/
def Sigaction.sa_handler (a : Sigaction) : Handler := a.sa_sigaction

/-- The type `struct MergedSignalHandle`. -/
structure MergedSignalHandle where
  new : Sigaction
  original : Sigaction
  deriving DecidableEq, Repr

/-- A `GHashTable` with direct keys: at most the first entry of a key is seen. -/
abbrev GHashTable := List (Int × MergedSignalHandle)

/-- The value of the first entry with the given key. -/
def table_lookup : GHashTable → Int → Option MergedSignalHandle
  | [], _ => none
  | (k, v) :: t, key => if k = key then some v else table_lookup t key

/-- Lookup in a table that may be the null pointer: `none` for `NULL`. -/
def g_hash_table_lookup (h : Option GHashTable) (key : Int) : Option MergedSignalHandle :=
  match h with
  | none => none
  | some t => table_lookup t key

def g_hash_table_contains (h : Option GHashTable) (key : Int) : Bool :=
  (g_hash_table_lookup h key).isSome

/-- Replace the value of `key`, or add the entry at the end. -/
def table_insert : GHashTable → Int → MergedSignalHandle → GHashTable
  | [], key, v => [(key, v)]
  | (k, w) :: t, key, v => if k = key then (k, v) :: t else (k, w) :: table_insert t key v

/-- Insertion; a null table is left as it is. -/
def g_hash_table_insert (h : Option GHashTable) (key : Int) (v : MergedSignalHandle) :
    Option GHashTable :=
  h.map (fun t => table_insert t key v)

/-- The store `merged->new = sa` through the pointer the table holds for `key`. -/
def table_set_new : GHashTable → Int → Sigaction → GHashTable
  | [], _, _ => []
  | (k, w) :: t, key, sa =>
    if k = key then (k, { w with new := sa }) :: t else (k, w) :: table_set_new t key sa

/-- Number of records a table holds for a key. -/
def record_count (h : Option GHashTable) (key : Int) : Nat :=
  match h with
  | none => 0
  | some t => t.countP (fun e => decide (e.1 = key))

/-- Ways the process dies. -/
inductive Fault where
  /-- A failed `g_assert`. -/
  | assertion_failed
  /-- A call of `g_error`. -/
  | fatal_error
  /-- A null or wild pointer is dereferenced or called. -/
  | segfault
  deriving DecidableEq, Repr

/-- File-scope and function-static variables, with the kernel's disposition
table and the calling thread's blocked set. -/
structure Globals where
  /-- The kernel's disposition of each signal number. -/
  sigtable : Int → Sigaction
  /-- Signals blocked in the thread that runs the initialisation. -/
  blocked : SigSet
  suspend_signal_num : Int
  restart_signal_num : Int
  abort_signal_num : Int
  suspend_signal_mask : SigSet
  suspend_ack_signal_mask : SigSet
  mono_ml_signal_handler_patched : Option GHashTable
  /-- Whether `mini_current_thread_checker` is set, and its answers if so. -/
  mini_current_thread_checker : Option (Nat → Bool)
  /-- The static `abort_signum` of `abort_signal_get`. -/
  abort_signum : Int
  /-- The static `suspend_signum` of `suspend_signal_get`. -/
  suspend_signum : Int
  /-- The static `restart_signum` of `restart_signal_get`. -/
  restart_signum : Int

/-- The variables as the program image initialises them. -/
def Globals.startup (tbl : Int → Sigaction) (blocked : SigSet) : Globals where
  sigtable := tbl
  blocked := blocked
  suspend_signal_num := -1
  restart_signal_num := -1
  abort_signal_num := -1
  suspend_signal_mask := sigemptyset
  suspend_ack_signal_mask := sigemptyset
  mono_ml_signal_handler_patched := none
  mini_current_thread_checker := none
  abort_signum := -1
  suspend_signum := -1
  restart_signum := -1

/-! ## Signal number search -/

/-- The loop `for (i = ...; i < SIGRTMAX; ++i)`, `fuel` bounding the iterations
left; `none` when the loop ends without a `return`. The query
`sigaction (i, NULL, &sinfo)` reads the kernel's entry for `i`. -/
def search_loop (p : Platform) (tbl : Int → Sigaction) : Nat → Nat → Option Nat
  | 0, _ => none
  | fuel + 1, i =>
    if i < p.SIGRTMAX then
      let sinfo := tbl (i : Int)
      if sinfo.sa_handler = Handler.SIG_DFL ∧ sinfo.sa_sigaction = Handler.SIG_DFL then
        some i
      else
        search_loop p tbl fuel (i + 1)
    else
      none

def mono_threads_suspend_search_alternative_signal (p : Platform) (tbl : Int → Sigaction) :
    Except Fault Int :=
  match search_loop p tbl p.SIGRTMAX (p.SIGRTMIN + 1) with
  | some i => .ok (i : Int)
  | none => .error .fatal_error

/-! ## Installation -/

/-- What the kernel's table holds of a disposition passed to `sigaction`: the
handler as passed, the mask and the flags as the platform keeps them. -/
def kernel_entry (p : Platform) (act : Sigaction) : Sigaction :=
  { sa_sigaction := act.sa_sigaction, sa_mask := p.kernel_mask act.sa_mask,
    sa_flags := p.kernel_flags act.sa_flags }

/-- The system call `sigaction (signo, act, oldact)` with `act` given: `none`
for the return value `-1`, else the new table and the displaced disposition. -/
def sigaction (p : Platform) (tbl : Int → Sigaction) (signo : Int) (act : Sigaction) :
    Option ((Int → Sigaction) × Sigaction) :=
  if p.sigaction_valid signo then
    some (fun n => if n = signo then kernel_entry p act else tbl n, tbl signo)
  else
    none

def signal_add_handler (p : Platform) (g : Globals) (signo : Int) (handler : Handler)
    (flags : Nat) : Except Fault Globals :=
  let managed_sa : Sigaction :=
    { sa_sigaction := handler, sa_mask := sigfillset p, sa_flags := p.SA_SIGINFO ||| flags }
  match sigaction p g.sigtable signo managed_sa with
  | none => .error .assertion_failed
  | some (tbl1, old_sa) =>
    let table1 :=
      if !g_hash_table_contains g.mono_ml_signal_handler_patched signo then
        g_hash_table_insert g.mono_ml_signal_handler_patched signo
          { new := managed_sa, original := old_sa }
      else
        g.mono_ml_signal_handler_patched
    let table2 := table1.map (fun t => table_set_new t signo managed_sa)
    let sa : Sigaction :=
      { sa_sigaction := Handler.ml_v2_signal_generic_handler, sa_mask := sigfillset p,
        sa_flags := managed_sa.sa_flags ||| old_sa.sa_flags }
    match sigaction p tbl1 signo sa with
    | none => .error .assertion_failed
    | some (tbl2, _) =>
      .ok { g with sigtable := tbl2, mono_ml_signal_handler_patched := table2 }

def abort_signal_get (p : Platform) (g : Globals) : Except Fault (Globals × Int) :=
  if g.abort_signum = -1 then
    match mono_threads_suspend_search_alternative_signal p g.sigtable with
    | .error e => .error e
    | .ok n => .ok ({ g with abort_signum := n }, n)
  else
    .ok (g, g.abort_signum)

def suspend_signal_get (p : Platform) (g : Globals) : Except Fault (Globals × Int) :=
  if g.suspend_signum = -1 then
    match mono_threads_suspend_search_alternative_signal p g.sigtable with
    | .error e => .error e
    | .ok n => .ok ({ g with suspend_signum := n }, n)
  else
    .ok (g, g.suspend_signum)

def restart_signal_get (p : Platform) (g : Globals) : Except Fault (Globals × Int) :=
  if g.restart_signum = -1 then
    match mono_threads_suspend_search_alternative_signal p g.sigtable with
    | .error e => .error e
    | .ok n => .ok ({ g with restart_signum := n }, n)
  else
    .ok (g, g.restart_signum)

def mono_threads_suspend_init_signals (p : Platform) (g0 : Globals) : Except Fault Globals :=
  let g1 : Globals :=
    if g0.mono_ml_signal_handler_patched.isNone then
      { g0 with mono_ml_signal_handler_patched := some [] }
    else g0
  let signal_set0 := sigemptyset
  match suspend_signal_get p g1 with
  | .error e => .error e
  | .ok (g2, n1) =>
  let g3 : Globals := { g2 with suspend_signal_num := n1 }
  match signal_add_handler p g3 g3.suspend_signal_num Handler.suspend_signal_handler
      p.SA_RESTART with
  | .error e => .error e
  | .ok g4 =>
  let signal_set1 := sigaddset signal_set0 g4.suspend_signal_num
  match restart_signal_get p g4 with
  | .error e => .error e
  | .ok (g5, n2) =>
  let g6 : Globals := { g5 with restart_signal_num := n2 }
  let g7 : Globals :=
    { g6 with suspend_signal_mask := sigdelset (sigfillset p) g6.restart_signal_num }
  let g8 : Globals :=
    { g7 with suspend_ack_signal_mask := sigaddset sigemptyset g7.restart_signal_num }
  match signal_add_handler p g8 g8.restart_signal_num Handler.restart_signal_handler
      p.SA_RESTART with
  | .error e => .error e
  | .ok g9 =>
  let signal_set2 := sigaddset signal_set1 g9.restart_signal_num
  match abort_signal_get p g9 with
  | .error e => .error e
  | .ok (g10, n3) =>
  let g11 : Globals := { g10 with abort_signal_num := n3 }
  match signal_add_handler p g11 g11.abort_signal_num Handler.suspend_signal_handler 0 with
  | .error e => .error e
  | .ok g12 =>
  let signal_set3 := sigaddset signal_set2 g12.abort_signal_num
  .ok { g12 with blocked := sig_unblock g12.blocked signal_set3 }

def mono_melonloader_thread_suspend_reload (p : Platform) (g : Globals) :
    Except Fault Globals :=
  match signal_add_handler p g g.suspend_signal_num Handler.suspend_signal_handler
      p.SA_RESTART with
  | .error e => .error e
  | .ok g1 =>
  match signal_add_handler p g1 g1.restart_signal_num Handler.restart_signal_handler
      p.SA_RESTART with
  | .error e => .error e
  | .ok g2 =>
  signal_add_handler p g2 g2.abort_signal_num Handler.suspend_signal_handler 0

def mono_threads_suspend_get_suspend_signal (g : Globals) : Except Fault Int :=
  if g.suspend_signal_num ≠ -1 then .ok g.suspend_signal_num else .error .assertion_failed

def mono_threads_suspend_get_restart_signal (g : Globals) : Except Fault Int :=
  if g.restart_signal_num ≠ -1 then .ok g.restart_signal_num else .error .assertion_failed

def mono_threads_suspend_get_abort_signal (g : Globals) : Except Fault Int :=
  if g.abort_signal_num ≠ -1 then .ok g.abort_signal_num else .error .assertion_failed

def mono_melonloader_set_thread_checker (g : Globals) (checker : Option (Nat → Bool)) :
    Globals :=
  { g with mini_current_thread_checker := checker }

/-! ## Thread records and handlers -/

/-- Modelled from the spec: the enumeration of `suspend_source`, declared in a
header that is not part of the file ("enum: default / external"). -/
inductive MonoThreadSuspendSource where
  | MONO_THREAD_SUSPEND_SOURCE_DEFAULT
  | MONO_THREAD_SUSPEND_SOURCE_EXTERNAL
  deriving DecidableEq, Repr

/-- A register context, kept as an uninterpreted code. -/
structure MonoContext where
  code : Nat
  deriving DecidableEq, Repr

/-- The context the kernel hands to a handler, kept as an uninterpreted code. -/
structure SigContext where
  code : Nat
  deriving DecidableEq, Repr

/-- One slot of `thread_saved_state`. -/
structure MonoThreadUnwindState where
  ctx : MonoContext
  /-- Everything else the capture routine writes. -/
  unwind_data : Nat
  deriving DecidableEq, Repr

/-- The fields of `MonoThreadInfo` that the file reads or writes. -/
structure MonoThreadInfo where
  /-- The state word the suspend state machine acts on. -/
  thread_state : Nat
  signal : Int
  syscall_break_signal : Bool
  suspend_can_continue : Bool
  /-- The slot `thread_saved_state [ASYNC_SUSPEND_STATE_INDEX]`. -/
  thread_saved_state : MonoThreadUnwindState
  async_target : Nat
  user_data : Nat
  suspend_source : MonoThreadSuspendSource
  suspend_source_locked : Bool
  deriving DecidableEq, Repr

/-- What a handler can change: the thread record of the thread it runs on and
the signal context of its delivery. -/
structure Frame where
  current : MonoThreadInfo
  context : SigContext
  deriving DecidableEq, Repr

/-- How a call ends. -/
inductive Status where
  | returned
  | faulted (f : Fault)
  /-- The thread stays in `sigsuspend`: no further wake-up comes. -/
  | blocked
  deriving DecidableEq, Repr

/-- Calls of collaborators, in the order a handler makes them. -/
inductive Event where
  | mono_thread_info_get_small_id
  | mono_thread_info_current
  | mono_hazard_pointer_save_for_signal_handler
  | mono_hazard_pointer_restore_for_signal_handler
  /-- A call through a `sa_sigaction` pointer. -/
  | call (h : Handler) (signo : Int)
  | mono_threads_notify_initiator_of_abort
  | mono_threads_notify_initiator_of_suspend
  | mono_threads_notify_initiator_of_resume
  | mono_threads_transition_finish_async_suspend
  | mono_threads_is_hybrid_suspension_enabled
  | thread_state_init_from_sigctx
  /-- The call `pthread_sigmask (SIG_BLOCK, set, NULL)`. -/
  | pthread_sigmask_block (set : SigSet)
  /-- The call `pthread_sigmask (SIG_UNBLOCK, set, NULL)`. -/
  | pthread_sigmask_unblock (set : SigSet)
  | sigsuspend (mask : SigSet)
  | setup_async_callback (ctx : MonoContext) (async_target user_data : Nat)
  | mono_monoctx_to_sigctx (ctx : MonoContext)
  deriving DecidableEq, Repr

/-- Outcome of a handler call: how it ended, the state it left and the calls
it made up to that point. -/
structure Result where
  status : Status
  frame : Frame
  trace : List Event
  deriving DecidableEq, Repr

/-- What happens to the thread record during one `sigsuspend`: the handlers
that run on the thread and the stores of other threads. -/
abbrev Wake := MonoThreadInfo → Status × MonoThreadInfo

/-- The collaborators outside the file. -/
structure Runtime where
  /-- Result and new state word of `mono_threads_transition_finish_async_suspend`. -/
  mono_threads_transition_finish_async_suspend : Nat → Bool × Nat
  mono_threads_is_hybrid_suspension_enabled : Bool
  /-- Result of the capture callback and the slot as it leaves it. -/
  thread_state_init_from_sigctx : MonoThreadUnwindState → SigContext → Bool × MonoThreadUnwindState
  setup_async_callback : MonoContext → Nat → Nat → MonoContext
  mono_monoctx_to_sigctx : MonoContext → SigContext → SigContext
  /-- A handler of another owner, by address, called with a signal number. -/
  foreign : Nat → Int → Frame → Status × Frame

def restart_signal_handler (g : Globals) (f : Frame) : Result :=
  let info := f.current
  let info := { info with signal := g.restart_signal_num }
  { status := .returned, frame := { f with current := info },
    trace := [Event.mono_thread_info_current] }

/-- The loop `do { current->signal = 0; sigsuspend (..); } while (current->signal
!= restart_signal_num)`, one wake-up per `sigsuspend`. -/
def restart_wait (g : Globals) : List Wake → MonoThreadInfo → Status × MonoThreadInfo × List Event
  | [], current =>
    (.blocked, { current with signal := 0 }, [Event.sigsuspend g.suspend_signal_mask])
  | w :: ws, current =>
    let current := { current with signal := 0 }
    match w current with
    | (.returned, current) =>
      if current.signal ≠ g.restart_signal_num then
        let r := restart_wait g ws current
        (r.1, r.2.1, Event.sigsuspend g.suspend_signal_mask :: r.2.2)
      else
        (.returned, current, [Event.sigsuspend g.suspend_signal_mask])
    | (st, current) => (st, current, [Event.sigsuspend g.suspend_signal_mask])

def suspend_signal_handler (rt : Runtime) (g : Globals) (wakes : List Wake) (f : Frame) :
    Result :=
  let current := f.current
  let tr0 := [Event.mono_thread_info_current]
  if current.syscall_break_signal then
    let current := { current with syscall_break_signal := false }
    { status := .returned, frame := { f with current := current },
      trace := tr0 ++ [Event.mono_threads_notify_initiator_of_abort] }
  else
    let t := rt.mono_threads_transition_finish_async_suspend current.thread_state
    let current := { current with thread_state := t.2 }
    let tr1 := tr0 ++ [Event.mono_threads_transition_finish_async_suspend]
    if !t.1 then
      let current := { current with suspend_can_continue := true }
      let tr2 := tr1 ++ [Event.mono_threads_is_hybrid_suspension_enabled]
      if !rt.mono_threads_is_hybrid_suspension_enabled then
        { status := .faulted .assertion_failed, frame := { f with current := current },
          trace := tr2 }
      else
        { status := .returned, frame := { f with current := current },
          trace := tr2 ++ [Event.mono_threads_notify_initiator_of_suspend] }
    else
      let c := rt.thread_state_init_from_sigctx current.thread_saved_state f.context
      let current := { current with thread_saved_state := c.2, suspend_can_continue := c.1 }
      let tr2 := tr1 ++ [Event.thread_state_init_from_sigctx,
        Event.pthread_sigmask_block g.suspend_ack_signal_mask,
        Event.mono_threads_notify_initiator_of_suspend]
      match restart_wait g wakes current with
      | (.returned, current, waits) =>
        let tr3 := tr2 ++ waits ++ [Event.pthread_sigmask_unblock g.suspend_ack_signal_mask]
        if current.async_target ≠ 0 then
          let tmp := current.thread_saved_state.ctx
          let tmp1 := rt.setup_async_callback tmp current.async_target current.user_data
          let tr4 := tr3 ++ [Event.setup_async_callback tmp current.async_target current.user_data]
          let current := { current with user_data := 0 }
          let current := { current with async_target := 0 }
          let context := rt.mono_monoctx_to_sigctx tmp1 f.context
          { status := .returned, frame := { current := current, context := context },
            trace := tr4 ++ [Event.mono_monoctx_to_sigctx tmp1,
              Event.mono_threads_notify_initiator_of_resume] }
        else
          { status := .returned, frame := { f with current := current },
            trace := tr3 ++ [Event.mono_threads_notify_initiator_of_resume] }
      | (st, current, waits) =>
        { status := st, frame := { f with current := current }, trace := tr2 ++ waits }

def mono_is_registered_thread (small_id : Int) : Bool :=
  decide (small_id ≠ -1)

/-- A call through a handler pointer. The two constants are not code; the
trampoline as its own chained handler recurses until the stack is exhausted. -/
def call_handler (rt : Runtime) (g : Globals) (h : Handler) (signo : Int) (wakes : List Wake)
    (f : Frame) : Result :=
  match h with
  | .SIG_DFL => { status := .faulted .segfault, frame := f, trace := [] }
  | .SIG_IGN => { status := .faulted .segfault, frame := f, trace := [] }
  | .suspend_signal_handler => suspend_signal_handler rt g wakes f
  | .restart_signal_handler => restart_signal_handler g f
  | .ml_v2_signal_generic_handler => { status := .faulted .segfault, frame := f, trace := [] }
  | .fn addr =>
    let r := rt.foreign addr signo f
    { status := r.1, frame := r.2, trace := [] }

def melonloader_signal_handler_fallback (rt : Runtime) (g : Globals)
    (merged : Option MergedSignalHandle) (signo : Int) (wakes : List Wake) (f : Frame) :
    Result :=
  match merged with
  | none => { status := .faulted .segfault, frame := f, trace := [] }
  | some m =>
    if m.original.sa_sigaction ≠ Handler.SIG_DFL then
      let r := call_handler rt g m.original.sa_sigaction signo wakes f
      { r with trace := Event.call m.original.sa_sigaction signo :: r.trace }
    else
      { status := .returned, frame := f, trace := [] }

/-- Truth value of the condition `"signal should not be handled"`: a string
literal is a pointer that is not null. -/
def string_literal_condition : Bool := true

/-- The part of the trampoline from `done_registered:` on. -/
def done_registered (isSignalAuthority shouldSaveHandler : Bool) (r : Result) : Result :=
  let current := r.frame.current
  let current :=
    if isSignalAuthority then
      { current with
        suspend_source := MonoThreadSuspendSource.MONO_THREAD_SUSPEND_SOURCE_DEFAULT,
        suspend_source_locked := false }
    else current
  { status := .returned, frame := { r.frame with current := current },
    trace := r.trace ++
      (if shouldSaveHandler then [Event.mono_hazard_pointer_restore_for_signal_handler]
       else []) }

def ml_v2_signal_generic_handler (rt : Runtime) (g : Globals) (small_id : Int) (signo : Int)
    (wakes : List Wake) (f : Frame) : Result :=
  if !g_hash_table_contains g.mono_ml_signal_handler_patched signo
      && !string_literal_condition then
    { status := .faulted .assertion_failed, frame := f, trace := [] }
  else
  let merged := g_hash_table_lookup g.mono_ml_signal_handler_patched signo
  let isRegistered := mono_is_registered_thread small_id
  let tr0 := [Event.mono_thread_info_get_small_id]
  if !isRegistered then
    let r := melonloader_signal_handler_fallback rt g merged signo wakes f
    { r with trace := tr0 ++ r.trace }
  else
  let shouldSaveHandler := decide (signo = g.suspend_signal_num)
  let tr1 := tr0 ++
    (if shouldSaveHandler then [Event.mono_hazard_pointer_save_for_signal_handler] else [])
  let current := f.current
  let tr2 := tr1 ++ [Event.mono_thread_info_current]
  let isSignalAuthority := !current.suspend_source_locked
  let current :=
    if isSignalAuthority then { current with suspend_source_locked := true } else current
  let f1 : Frame := { f with current := current }
  match current.suspend_source with
  | .MONO_THREAD_SUSPEND_SOURCE_EXTERNAL =>
    let r := melonloader_signal_handler_fallback rt g merged signo wakes f1
    if r.status = .returned then
      done_registered isSignalAuthority shouldSaveHandler { r with trace := tr2 ++ r.trace }
    else
      { r with trace := tr2 ++ r.trace }
  | .MONO_THREAD_SUSPEND_SOURCE_DEFAULT =>
    match merged with
    | none => { status := .faulted .segfault, frame := f1, trace := tr2 }
    | some m =>
      if m.new.sa_sigaction = Handler.suspend_signal_handler
          ∨ m.new.sa_sigaction = Handler.restart_signal_handler then
        let r := call_handler rt g m.new.sa_sigaction signo wakes f1
        let r1 := { r with trace := tr2 ++ Event.call m.new.sa_sigaction signo :: r.trace }
        if r.status = .returned then
          done_registered isSignalAuthority shouldSaveHandler r1
        else r1
      else
        { status := .faulted .assertion_failed, frame := f1, trace := tr2 }

/-- The arguments of one call of `signal_add_handler`. -/
structure AddCall where
  signo : Int
  handler : Handler
  flags : Nat
  deriving DecidableEq, Repr

/-- Calls of `signal_add_handler` one after the other, stopping at a failure. -/
def add_handlers (p : Platform) : Globals → List AddCall → Except Fault Globals
  | g, [] => .ok g
  | g, c :: cs =>
    match signal_add_handler p g c.signo c.handler c.flags with
    | .error e => .error e
    | .ok g1 => add_handlers p g1 cs

/-- The latest call of a sequence that is for signal number `s`. -/
def last_call : List AddCall → Int → Option AddCall
  | [], _ => none
  | c :: cs, s =>
    match last_call cs s with
    | some d => some d
    | none => if c.signo = s then some c else none

/-- The `sigaction` the installation builds from a handler and extra flags. -/
def managed_sa (p : Platform) (handler : Handler) (flags : Nat) : Sigaction :=
  { sa_sigaction := handler, sa_mask := sigfillset p, sa_flags := p.SA_SIGINFO ||| flags }

/-- The disposition chained for `s`: the recorded original, or, with no
record yet, what the kernel holds. -/
def chained_original (g : Globals) (s : Int) : Sigaction :=
  match g_hash_table_lookup g.mono_ml_signal_handler_patched s with
  | some m => m.original
  | none => g.sigtable s

/-- The two entry points that install handlers. -/
inductive Op where
  | init_signals
  | reload
  deriving DecidableEq, Repr

def Op.run (p : Platform) (g : Globals) : Op → Except Fault Globals
  | .init_signals => mono_threads_suspend_init_signals p g
  | .reload => mono_melonloader_thread_suspend_reload p g

/-- Entry points called one after the other, stopping at a failure. -/
def run_ops (p : Platform) : Globals → List Op → Except Fault Globals
  | g, [] => .ok g
  | g, o :: os =>
    match o.run p g with
    | .error e => .error e
    | .ok g1 => run_ops p g1 os

/-! ## Invariants of the installed state -/

/-- Signal number `n` is chained: the kernel accepts it, the table holds one
record for it, with handler `h`, flags `SA_SIGINFO | f` and original `orig`,
and the kernel's entry for `n` has the trampoline as handler. -/
def Slot (p : Platform) (g : Globals) (n : Int) (h : Handler) (f : Nat) (orig : Sigaction) :
    Prop :=
  p.sigaction_valid n = true
  ∧ record_count g.mono_ml_signal_handler_patched n = 1
  ∧ g_hash_table_lookup g.mono_ml_signal_handler_patched n
      = some { new := managed_sa p h f, original := orig }
  ∧ (g.sigtable n).sa_sigaction = Handler.ml_v2_signal_generic_handler

/-- The state `mono_threads_suspend_init_signals` establishes from a start in
which the kernel's table was `tbl`. -/
def Installed (p : Platform) (tbl : Int → Sigaction) (g : Globals) : Prop :=
  (g.suspend_signum = g.suspend_signal_num ∧ g.suspend_signal_num ≠ -1)
  ∧ (g.restart_signum = g.restart_signal_num ∧ g.restart_signal_num ≠ -1)
  ∧ (g.abort_signum = g.abort_signal_num ∧ g.abort_signal_num ≠ -1)
  ∧ (g.suspend_signal_num ≠ g.restart_signal_num
      ∧ g.suspend_signal_num ≠ g.abort_signal_num
      ∧ g.restart_signal_num ≠ g.abort_signal_num)
  ∧ Slot p g g.suspend_signal_num Handler.suspend_signal_handler p.SA_RESTART
      (tbl g.suspend_signal_num)
  ∧ Slot p g g.restart_signal_num Handler.restart_signal_handler p.SA_RESTART
      (tbl g.restart_signal_num)
  ∧ Slot p g g.abort_signal_num Handler.suspend_signal_handler 0 (tbl g.abort_signal_num)

/-! ## Predicates on handler runs -/

/-- Whether an event is a call through a handler pointer. -/
def Event.is_call : Event → Bool
  | .call _ _ => true
  | _ => false

/-- Whether an event is a `sigsuspend`. -/
def Event.is_wait : Event → Bool
  | .sigsuspend _ => true
  | _ => false

/-- The thread record as the suspend handler holds it when it enters the wait
loop: state word after the transition, slot and flag after the capture. -/
def at_wait_entry (rt : Runtime) (f : Frame) : MonoThreadInfo :=
  { f.current with
    thread_state := (rt.mono_threads_transition_finish_async_suspend f.current.thread_state).2,
    thread_saved_state :=
      (rt.thread_state_init_from_sigctx f.current.thread_saved_state f.context).2,
    suspend_can_continue :=
      (rt.thread_state_init_from_sigctx f.current.thread_saved_state f.context).1 }

/-- Every wake-up returns, and the last one leaves the restart signal number
in the last-signal field. -/
def EndsWithRestart (g : Globals) (wakes : List Wake) : Prop :=
  (∀ w ∈ wakes, ∀ c, (w c).1 = Status.returned)
  ∧ ∃ pre w, wakes = pre ++ [w] ∧ ∀ c, (w c).2.signal = g.restart_signal_num

/-- Whether an event is a call of `setup_async_callback`. -/
def Event.is_setup : Event → Bool
  | .setup_async_callback _ _ _ => true
  | _ => false

/-- The wake-ups of a list are taken one after the other, each on the record
with the last-signal field cleared, each returns, and none leaves the restart
signal number in the field; `c1` is the record after the last of them. -/
def NonRestartRun (g : Globals) : List Wake → MonoThreadInfo → MonoThreadInfo → Prop
  | [], c, c1 => c1 = c
  | v :: vs, c, c1 =>
    ∃ c2, v { c with signal := 0 } = (Status.returned, c2)
      ∧ c2.signal ≠ g.restart_signal_num ∧ NonRestartRun g vs c2 c1

/-- The two masks are the ones the initialisation builds from the restart
signal number. -/
def MasksSet (p : Platform) (g : Globals) : Prop :=
  g.suspend_signal_mask = sigdelset (sigfillset p) g.restart_signal_num
  ∧ g.suspend_ack_signal_mask = sigaddset sigemptyset g.restart_signal_num

/-- A concrete host, Linux with the GNU C library on x86-64: every number from
1 to 64 but 9, 19, 32 and 33 settable; `sigfillset` leaves out 32 and 33; the
library adds `SA_RESTORER` (0x04000000) to the flags and the kernel drops 9
and 19 from a stored mask. -/
def linux : Platform where
  SIGRTMIN := 34
  SIGRTMAX := 64
  SA_SIGINFO := 4
  SA_RESTART := 0x10000000
  sigaction_valid := fun n =>
    decide (1 ≤ n) && decide (n ≤ 64) && !decide (n = 9) && !decide (n = 19)
      && !decide (n = 32) && !decide (n = 33)
  libc_reserved := [32, 33]
  kernel_flags := fun f => f ||| 0x04000000
  kernel_mask := fun m => sigdelset (sigdelset m 9) 19

/-- The default disposition. -/
def dfl : Sigaction := { sa_sigaction := Handler.SIG_DFL, sa_mask := sigemptyset, sa_flags := 0 }

/-- A disposition table in which the last real-time number alone is default. -/
def only_rtmax_free : Int → Sigaction :=
  fun n => if n = 64 then dfl else { dfl with sa_sigaction := Handler.SIG_IGN }

/-- A kernel table with every disposition default. -/
def all_default : Int → Sigaction := fun _ => dfl

/-- The variables after the table has been created, nothing installed yet. -/
def fresh_table : Globals :=
  { Globals.startup all_default sigemptyset with mono_ml_signal_handler_patched := some [] }

/-- Three installations, the first and the last for signal number 40. -/
def three_calls : List AddCall :=
  [{ signo := 40, handler := Handler.fn 1, flags := 0 },
   { signo := 41, handler := Handler.restart_signal_handler, flags := 0 },
   { signo := 40, handler := Handler.suspend_signal_handler, flags := 0x10000000 }]

/-- Collaborators that always succeed, with a foreign handler that changes
nothing. -/
def plain_runtime : Runtime where
  mono_threads_transition_finish_async_suspend := fun s => (true, s + 1)
  mono_threads_is_hybrid_suspension_enabled := true
  thread_state_init_from_sigctx := fun _ c => (true, { ctx := { code := c.code }, unwind_data := 1 })
  setup_async_callback := fun c t u => { code := c.code + t + u }
  mono_monoctx_to_sigctx := fun c _ => { code := c.code }
  foreign := fun _ _ f => (Status.returned, f)

/-- A running thread record with nothing pending. -/
def idle_thread : MonoThreadInfo where
  thread_state := 0
  signal := 0
  syscall_break_signal := false
  suspend_can_continue := false
  thread_saved_state := { ctx := { code := 0 }, unwind_data := 0 }
  async_target := 0
  user_data := 0
  suspend_source := MonoThreadSuspendSource.MONO_THREAD_SUSPEND_SOURCE_DEFAULT
  suspend_source_locked := false

/-- The state after the first initialisation on the Linux numbers with every
disposition default: suspend 35, restart 36, abort 37. -/
def installed_linux : Globals :=
  match mono_threads_suspend_init_signals linux (Globals.startup all_default sigemptyset) with
  | .ok g => g
  | .error _ => Globals.startup all_default sigemptyset

/-- The wake-up made of the restart handler alone. -/
def restart_wake (g : Globals) : Wake :=
  fun c => (Status.returned, { c with signal := g.restart_signal_num })

/-- A frame whose thread has `user_data` set and no `async_target`. -/
def data_without_target : Frame :=
  { current := { idle_thread with user_data := 5 }, context := { code := 9 } }

/-- A frame whose thread has a pending asynchronous call. -/
def pending_call : Frame :=
  { current := { idle_thread with async_target := 3, user_data := 5 }, context := { code := 9 } }

/-- A frame whose thread has the syscall-break flag set. -/
def syscall_break : Frame :=
  { current := { idle_thread with syscall_break_signal := true }, context := { code := 9 } }

/-- A kernel table in which another owner has a handler for signal number 40. -/
def foreign_owner_table : Int → Sigaction :=
  fun n => if n = 40 then { sa_sigaction := Handler.fn 7, sa_mask := sigemptyset, sa_flags := 4 }
    else dfl

/-- The state after the suspend handler has been installed over that handler. -/
def chained_40 : Globals :=
  match signal_add_handler linux
      { Globals.startup foreign_owner_table sigemptyset with
        mono_ml_signal_handler_patched := some [], suspend_signal_num := 40 }
      40 Handler.suspend_signal_handler linux.SA_RESTART with
  | .ok g => g
  | .error _ => Globals.startup foreign_owner_table sigemptyset

/-- The record `chained_40` holds for signal number 40. -/
def record_40 : MergedSignalHandle :=
  { new := { sa_sigaction := Handler.suspend_signal_handler, sa_mask := sigfillset linux,
             sa_flags := 4 ||| 0x10000000 },
    original := { sa_sigaction := Handler.fn 7, sa_mask := sigemptyset, sa_flags := 4 } }

/-- A frame on an idle thread. -/
def idle_frame : Frame := { current := idle_thread, context := { code := 9 } }

/-- A wake-up that returns without touching the thread record. -/
def spurious_wake : Wake := fun c => (Status.returned, c)

/-- The state after the suspend handler has been installed, with no extra
flags, for signal number 40 of a fresh table. -/
def after_install_40 : Globals :=
  match signal_add_handler linux fresh_table 40 Handler.suspend_signal_handler 0 with
  | .ok g => g
  | .error _ => fresh_table

/-! ## Hash table and installation lemmas -/


theorem lookup_cons (k : Int) (v : MergedSignalHandle) (t : GHashTable) (key : Int) :
    g_hash_table_lookup (some ((k, v) :: t)) key
      = if k = key then some v else g_hash_table_lookup (some t) key := by
  simp [g_hash_table_lookup, table_lookup]

theorem lookup_table_insert (t : GHashTable) (key : Int) (v : MergedSignalHandle) (k : Int) :
    g_hash_table_lookup (some (table_insert t key v)) k
      = if k = key then some v else g_hash_table_lookup (some t) k := by
  induction t with
  | nil =>
    by_cases h : k = key
    · simp [table_insert, g_hash_table_lookup, table_lookup, h]
    · have h2 : ¬ key = k := fun e => h e.symm
      simp [table_insert, g_hash_table_lookup, table_lookup, h, h2]
  | cons e t ih =>
    obtain ⟨a, w⟩ := e
    by_cases h1 : a = key
    · by_cases h2 : k = key
      · simp [table_insert, lookup_cons, h1, h2]
      · have h3 : ¬ key = k := fun e => h2 e.symm
        simp [table_insert, lookup_cons, h1, h2, h3]
    · by_cases h2 : k = key
      · subst h2
        simp [table_insert, lookup_cons, h1, ih]
      · simp [table_insert, lookup_cons, h1, h2, ih]

theorem lookup_table_set_new (t : GHashTable) (key : Int) (sa : Sigaction) (k : Int) :
    g_hash_table_lookup (some (table_set_new t key sa)) k
      = if k = key then (g_hash_table_lookup (some t) key).map (fun m => { m with new := sa })
        else g_hash_table_lookup (some t) k := by
  induction t with
  | nil => simp [table_set_new, g_hash_table_lookup, table_lookup]
  | cons e t ih =>
    obtain ⟨a, w⟩ := e
    by_cases h1 : a = key
    · by_cases h2 : k = key
      · simp [table_set_new, lookup_cons, h1, h2]
      · have h3 : ¬ key = k := fun e => h2 e.symm
        simp [table_set_new, lookup_cons, h1, h2, h3]
    · by_cases h2 : k = key
      · subst h2
        simp [table_set_new, lookup_cons, h1, ih]
      · by_cases h4 : a = k
        · simp [table_set_new, lookup_cons, h1, h2, h4]
        · simp [table_set_new, lookup_cons, h1, h2, h4, ih]

theorem count_table_set_new (t : GHashTable) (key : Int) (sa : Sigaction) (k : Int) :
    record_count (some (table_set_new t key sa)) k = record_count (some t) k := by
  induction t with
  | nil => simp [table_set_new]
  | cons e t ih =>
    obtain ⟨a, w⟩ := e
    simp only [record_count] at ih ⊢
    by_cases h1 : a = key
    · simp [table_set_new, h1, List.countP_cons]
    · simp [table_set_new, h1, List.countP_cons, ih]

theorem count_table_insert (t : GHashTable) (key : Int) (v : MergedSignalHandle) (k : Int)
    (hno : g_hash_table_lookup (some t) key = none) :
    record_count (some (table_insert t key v)) k
      = record_count (some t) k + (if k = key then 1 else 0) := by
  induction t with
  | nil =>
    by_cases h : key = k
    · simp [table_insert, record_count, h]
    · have h2 : ¬ k = key := fun e => h e.symm
      simp [table_insert, record_count, h, h2]
  | cons e t ih =>
    obtain ⟨a, w⟩ := e
    rw [lookup_cons] at hno
    by_cases h1 : a = key
    · simp [h1] at hno
    · simp only [h1, if_false] at hno
      have ih2 := ih hno
      simp only [record_count] at ih2 ⊢
      simp only [table_insert, h1, if_false, List.countP_cons, ih2]
      omega

theorem lookup_none_iff_count (t : GHashTable) (k : Int) :
    g_hash_table_lookup (some t) k = none ↔ record_count (some t) k = 0 := by
  induction t with
  | nil => simp [g_hash_table_lookup, table_lookup, record_count]
  | cons e t ih =>
    obtain ⟨a, w⟩ := e
    rw [lookup_cons]
    simp only [record_count] at ih ⊢
    by_cases h1 : a = k
    · simp [h1, List.countP_cons]
    · simp [h1, List.countP_cons, ih]


theorem signal_add_handler_eq (p : Platform) (g : Globals) (signo : Int) (h : Handler)
    (f : Nat) (hv : p.sigaction_valid signo = true) :
    signal_add_handler p g signo h f = .ok
      { g with
        sigtable := fun n =>
          if n = signo then
            kernel_entry p
              { sa_sigaction := Handler.ml_v2_signal_generic_handler, sa_mask := sigfillset p,
                sa_flags := (p.SA_SIGINFO ||| f) ||| (g.sigtable signo).sa_flags }
          else g.sigtable n
        mono_ml_signal_handler_patched :=
          (if !g_hash_table_contains g.mono_ml_signal_handler_patched signo then
            g_hash_table_insert g.mono_ml_signal_handler_patched signo
              { new := { sa_sigaction := h, sa_mask := sigfillset p,
                         sa_flags := p.SA_SIGINFO ||| f },
                original := g.sigtable signo }
          else g.mono_ml_signal_handler_patched).map
            (fun t => table_set_new t signo
              { sa_sigaction := h, sa_mask := sigfillset p, sa_flags := p.SA_SIGINFO ||| f }) } := by
  simp only [signal_add_handler, sigaction, hv, if_true]
  congr 2
  funext n
  by_cases hn : n = signo <;> simp [hn]

theorem signal_add_handler_fails (p : Platform) (g : Globals) (signo : Int) (h : Handler)
    (f : Nat) (hv : p.sigaction_valid signo = false) :
    signal_add_handler p g signo h f = .error .assertion_failed := by
  simp [signal_add_handler, sigaction, hv]

/-- Record a table holds for `signo` after an installation. -/
theorem lookup_after_add (p : Platform) (g g1 : Globals) (signo : Int) (h : Handler) (f : Nat)
    (t : GHashTable) (ht : g.mono_ml_signal_handler_patched = some t)
    (hok : signal_add_handler p g signo h f = .ok g1) (k : Int) :
    g_hash_table_lookup g1.mono_ml_signal_handler_patched k =
      if k = signo then
        some { new := { sa_sigaction := h, sa_mask := sigfillset p,
                        sa_flags := p.SA_SIGINFO ||| f },
               original := match g_hash_table_lookup (some t) signo with
                 | some m => m.original
                 | none => g.sigtable signo }
      else g_hash_table_lookup (some t) k := by
  have hv : p.sigaction_valid signo = true := by
    by_contra hc
    simp only [Bool.not_eq_true] at hc
    rw [signal_add_handler_fails p g signo h f hc] at hok
    cases hok
  rw [signal_add_handler_eq p g signo h f hv] at hok
  injection hok with hok
  subst hok
  simp only [ht, g_hash_table_contains, g_hash_table_insert]
  cases hl : g_hash_table_lookup (some t) signo with
  | none =>
    simp only [Option.isSome_none, Bool.not_false, if_true, Option.map_some']
    rw [lookup_table_set_new, lookup_table_insert]
    by_cases hk : k = signo
    · simp [hk]
    · simp [hk, lookup_table_insert]
  | some m =>
    simp only [Option.isSome_some, Bool.not_true, Option.map_some']
    simp only [Bool.false_eq_true, if_false, Option.map_some']
    rw [lookup_table_set_new]
    by_cases hk : k = signo
    · simp [hk, hl]
    · simp [hk]

theorem count_after_add (p : Platform) (g g1 : Globals) (signo : Int) (h : Handler) (f : Nat)
    (t : GHashTable) (ht : g.mono_ml_signal_handler_patched = some t)
    (hok : signal_add_handler p g signo h f = .ok g1) (k : Int) :
    record_count g1.mono_ml_signal_handler_patched k =
      if k = signo ∧ record_count (some t) signo = 0 then 1 else record_count (some t) k := by
  have hv : p.sigaction_valid signo = true := by
    by_contra hc
    simp only [Bool.not_eq_true] at hc
    rw [signal_add_handler_fails p g signo h f hc] at hok
    cases hok
  rw [signal_add_handler_eq p g signo h f hv] at hok
  injection hok with hok
  subst hok
  simp only [ht, g_hash_table_contains, g_hash_table_insert]
  cases hl : g_hash_table_lookup (some t) signo with
  | none =>
    have hc := (lookup_none_iff_count t signo).1 hl
    simp only [Option.isSome_none, Bool.not_false, if_true, Option.map_some']
    rw [count_table_set_new, count_table_insert _ _ _ _ hl]
    by_cases hk : k = signo
    · simp [hk, hc]
    · simp [hk]
  | some m =>
    have hc : record_count (some t) signo ≠ 0 := by
      intro h0
      rw [← lookup_none_iff_count, hl] at h0
      cases h0
    simp only [Option.isSome_some, Bool.not_true, Bool.false_eq_true, if_false,
      Option.map_some']
    rw [count_table_set_new]
    simp [hc]


theorem add_ok_valid (p : Platform) (g g1 : Globals) (s : Int) (h : Handler) (f : Nat)
    (hok : signal_add_handler p g s h f = .ok g1) : p.sigaction_valid s = true := by
  by_contra hc
  simp only [Bool.not_eq_true] at hc
  rw [signal_add_handler_fails p g s h f hc] at hok
  cases hok

/-- Everything an installation leaves alone, and the entry it writes. -/
theorem add_ok_frame (p : Platform) (g g1 : Globals) (s : Int) (h : Handler) (f : Nat)
    (hok : signal_add_handler p g s h f = .ok g1) :
    g1.suspend_signal_num = g.suspend_signal_num ∧ g1.restart_signal_num = g.restart_signal_num
    ∧ g1.abort_signal_num = g.abort_signal_num ∧ g1.suspend_signum = g.suspend_signum
    ∧ g1.restart_signum = g.restart_signum ∧ g1.abort_signum = g.abort_signum
    ∧ g1.sigtable s = kernel_entry p
        { sa_sigaction := Handler.ml_v2_signal_generic_handler, sa_mask := sigfillset p,
          sa_flags := (p.SA_SIGINFO ||| f) ||| (g.sigtable s).sa_flags }
    ∧ (∀ k, k ≠ s → g1.sigtable k = g.sigtable k)
    ∧ (g1.mono_ml_signal_handler_patched.isSome = g.mono_ml_signal_handler_patched.isSome) := by
  have hv := add_ok_valid p g g1 s h f hok
  rw [signal_add_handler_eq p g s h f hv] at hok
  injection hok with hok
  subst hok
  refine ⟨rfl, rfl, rfl, rfl, rfl, rfl, by simp, ?_, ?_⟩
  · intro k hk
    simp [hk]
  · cases hp : g.mono_ml_signal_handler_patched <;>
      simp [g_hash_table_contains, g_hash_table_insert, g_hash_table_lookup, table_lookup]
    split <;> simp

theorem search_loop_some (p : Platform) (tbl : Int → Sigaction) (fuel i k : Nat) :
    search_loop p tbl fuel i = some k ↔
      (i ≤ k ∧ k < p.SIGRTMAX ∧ k < i + fuel
        ∧ ((tbl (k : Int)).sa_handler = Handler.SIG_DFL
            ∧ (tbl (k : Int)).sa_sigaction = Handler.SIG_DFL)
        ∧ ∀ j : Nat, i ≤ j → j < k →
            ¬ ((tbl (j : Int)).sa_handler = Handler.SIG_DFL
                ∧ (tbl (j : Int)).sa_sigaction = Handler.SIG_DFL)) := by
  induction fuel generalizing i with
  | zero =>
    simp only [search_loop]
    constructor
    · intro h; cases h
    · rintro ⟨h1, _, h3, _⟩; omega
  | succ n ih =>
    simp only [search_loop]
    by_cases hlt : i < p.SIGRTMAX
    · simp only [hlt, if_true]
      by_cases hd : (tbl (i : Int)).sa_handler = Handler.SIG_DFL
          ∧ (tbl (i : Int)).sa_sigaction = Handler.SIG_DFL
      · rw [if_pos hd]
        constructor
        · intro h
          injection h with h
          subst h
          exact ⟨le_refl _, hlt, by omega, hd, fun j h1 h2 => by omega⟩
        · rintro ⟨h1, _, _, _, h5⟩
          by_cases hik : i = k
          · rw [hik]
          · exact absurd hd (h5 i (le_refl _) (by omega))
      · rw [if_neg hd, ih]
        constructor
        · rintro ⟨h1, h2, h3, h4, h5⟩
          refine ⟨by omega, h2, by omega, h4, ?_⟩
          intro j hj1 hj2
          by_cases hji : j = i
          · rw [hji]; exact hd
          · exact h5 j (by omega) hj2
        · rintro ⟨h1, h2, h3, h4, h5⟩
          have hne : i ≠ k := by
            intro e
            rw [e] at hd
            exact hd h4
          exact ⟨by omega, h2, by omega, h4, fun j hj1 hj2 => h5 j (by omega) hj2⟩
    · simp only [hlt, if_false]
      constructor
      · intro h; cases h
      · rintro ⟨h1, h2, _⟩; omega

theorem search_loop_none (p : Platform) (tbl : Int → Sigaction) (fuel i : Nat) :
    search_loop p tbl fuel i = none ↔
      ∀ j : Nat, i ≤ j → j < p.SIGRTMAX → j < i + fuel →
        ¬ ((tbl (j : Int)).sa_handler = Handler.SIG_DFL
            ∧ (tbl (j : Int)).sa_sigaction = Handler.SIG_DFL) := by
  constructor
  · intro h j h1 h2 h3 hd
    have hex : ∃ k, search_loop p tbl fuel i = some k := by
      -- the least default number at or above `i` is returned
      have hfind : ∃ k : Nat, i ≤ k ∧ k ≤ j
          ∧ ((tbl (k : Int)).sa_handler = Handler.SIG_DFL
              ∧ (tbl (k : Int)).sa_sigaction = Handler.SIG_DFL)
          ∧ ∀ m : Nat, i ≤ m → m < k →
            ¬ ((tbl (m : Int)).sa_handler = Handler.SIG_DFL
                ∧ (tbl (m : Int)).sa_sigaction = Handler.SIG_DFL) := by
        classical
        let P : Nat → Prop := fun k => i ≤ k
          ∧ ((tbl (k : Int)).sa_handler = Handler.SIG_DFL
              ∧ (tbl (k : Int)).sa_sigaction = Handler.SIG_DFL)
        have hP : ∃ k, P k := ⟨j, h1, hd⟩
        refine ⟨Nat.find hP, (Nat.find_spec hP).1, Nat.find_min' hP ⟨h1, hd⟩,
          (Nat.find_spec hP).2, ?_⟩
        intro m hm1 hm2 hm3
        exact Nat.find_min hP hm2 ⟨hm1, hm3⟩
      obtain ⟨k, hk1, hk2, hk3, hk4⟩ := hfind
      exact ⟨k, (search_loop_some p tbl fuel i k).2 ⟨hk1, by omega, by omega, hk3, hk4⟩⟩
    obtain ⟨k, hk⟩ := hex
    rw [h] at hk
    cases hk
  · intro h
    cases hs : search_loop p tbl fuel i with
    | none => rfl
    | some k =>
      obtain ⟨h1, h2, h3, h4, _⟩ := (search_loop_some p tbl fuel i k).1 hs
      exact absurd h4 (h k h1 h2 h3)

/-! ## Signal search -/

/-- C6, counterexample: on the Linux numbers, with 64 (`SIGRTMAX`) the only
number of default disposition, the number lies in `SIGRTMIN + 1 .. SIGRTMAX` and
reads as default in both handler fields, yet the search does not return it: it
fails fatally. -/
theorem search_misses_SIGRTMAX :
    ((linux.SIGRTMIN : Int) + 1 ≤ 64 ∧ (64 : Int) ≤ linux.SIGRTMAX)
    ∧ ((only_rtmax_free 64).sa_handler = Handler.SIG_DFL
        ∧ (only_rtmax_free 64).sa_sigaction = Handler.SIG_DFL)
    ∧ mono_threads_suspend_search_alternative_signal linux only_rtmax_free
        = .error .fatal_error := by
  refine ⟨by decide, by decide, ?_⟩
  rfl

theorem search_ok_iff (p : Platform) (tbl : Int → Sigaction) (n : Int) :
    mono_threads_suspend_search_alternative_signal p tbl = .ok n ↔
      ∃ k : Nat, n = (k : Int) ∧ p.SIGRTMIN + 1 ≤ k ∧ k < p.SIGRTMAX
        ∧ ((tbl (k : Int)).sa_handler = Handler.SIG_DFL
            ∧ (tbl (k : Int)).sa_sigaction = Handler.SIG_DFL)
        ∧ ∀ j : Nat, p.SIGRTMIN + 1 ≤ j → j < k →
            ¬ ((tbl (j : Int)).sa_handler = Handler.SIG_DFL
                ∧ (tbl (j : Int)).sa_sigaction = Handler.SIG_DFL) := by
  unfold mono_threads_suspend_search_alternative_signal
  cases hs : search_loop p tbl p.SIGRTMAX (p.SIGRTMIN + 1) with
  | none =>
    constructor
    · intro h; cases h
    · rintro ⟨k, _, h1, h2, h3, h4⟩
      have := (search_loop_some p tbl p.SIGRTMAX (p.SIGRTMIN + 1) k).2
        ⟨h1, h2, by omega, h3, h4⟩
      rw [hs] at this
      cases this
  | some i =>
    obtain ⟨h1, h2, _, h4, h5⟩ := (search_loop_some p tbl p.SIGRTMAX (p.SIGRTMIN + 1) i).1 hs
    constructor
    · intro h
      injection h with h
      exact ⟨i, h.symm, h1, h2, h4, h5⟩
    · rintro ⟨k, hk, k1, k2, k3, k4⟩
      have := (search_loop_some p tbl p.SIGRTMAX (p.SIGRTMIN + 1) k).2
        ⟨k1, k2, by omega, k3, k4⟩
      rw [hs] at this
      injection this with this
      rw [hk, this]

/-- C6, amended: for every disposition table the search returns the smallest
number `n` with `SIGRTMIN + 1 ≤ n < SIGRTMAX` whose disposition is default in
both the simple and the extended handler field, so it never returns `SIGRTMIN`
(nor `SIGRTMAX`); it fails fatally exactly when no number of that range has a
default disposition, and it does nothing else. -/
theorem search_alternative_signal_spec (p : Platform) (tbl : Int → Sigaction) :
    (∀ n : Int, mono_threads_suspend_search_alternative_signal p tbl = .ok n ↔
      ∃ k : Nat, n = (k : Int) ∧ p.SIGRTMIN + 1 ≤ k ∧ k < p.SIGRTMAX
        ∧ ((tbl (k : Int)).sa_handler = Handler.SIG_DFL
            ∧ (tbl (k : Int)).sa_sigaction = Handler.SIG_DFL)
        ∧ ∀ j : Nat, p.SIGRTMIN + 1 ≤ j → j < k →
            ¬ ((tbl (j : Int)).sa_handler = Handler.SIG_DFL
                ∧ (tbl (j : Int)).sa_sigaction = Handler.SIG_DFL))
    ∧ (mono_threads_suspend_search_alternative_signal p tbl = .error .fatal_error ↔
        ∀ j : Nat, p.SIGRTMIN + 1 ≤ j → j < p.SIGRTMAX →
          ¬ ((tbl (j : Int)).sa_handler = Handler.SIG_DFL
              ∧ (tbl (j : Int)).sa_sigaction = Handler.SIG_DFL))
    ∧ (∀ n : Int, mono_threads_suspend_search_alternative_signal p tbl = .ok n →
        n ≠ (p.SIGRTMIN : Int) ∧ n ≠ (p.SIGRTMAX : Int))
    ∧ (∀ e, mono_threads_suspend_search_alternative_signal p tbl = .error e →
        e = Fault.fatal_error) := by
  have hsome := search_ok_iff p tbl
  refine ⟨hsome, ?_, ?_, ?_⟩
  · unfold mono_threads_suspend_search_alternative_signal
    cases hs : search_loop p tbl p.SIGRTMAX (p.SIGRTMIN + 1) with
    | none =>
      have := (search_loop_none p tbl p.SIGRTMAX (p.SIGRTMIN + 1)).1 hs
      constructor
      · intro _ j h1 h2
        exact this j h1 h2 (by omega)
      · intro _; rfl
    | some i =>
      obtain ⟨h1, h2, _, h4, _⟩ := (search_loop_some p tbl p.SIGRTMAX (p.SIGRTMIN + 1) i).1 hs
      constructor
      · intro h; cases h
      · intro h
        exact absurd h4 (h i h1 h2)
  · intro n hn
    obtain ⟨k, hk, h1, h2, _⟩ := (hsome n).1 hn
    subst hk
    constructor
    · intro e
      have : k = p.SIGRTMIN := by exact_mod_cast e
      omega
    · intro e
      have : k = p.SIGRTMAX := by exact_mod_cast e
      omega
  · intro e he
    unfold mono_threads_suspend_search_alternative_signal at he
    cases hs : search_loop p tbl p.SIGRTMAX (p.SIGRTMIN + 1) with
    | none =>
      rw [hs] at he
      injection he with he
      exact he.symm
    | some i =>
      rw [hs] at he
      cases he

/-! ## Repeated installation -/

theorem chained_original_after_add (p : Platform) (g g1 : Globals) (signo : Int) (h : Handler)
    (f : Nat) (t : GHashTable) (ht : g.mono_ml_signal_handler_patched = some t)
    (hok : signal_add_handler p g signo h f = .ok g1) (s : Int) :
    chained_original g1 s = chained_original g s := by
  unfold chained_original
  rw [lookup_after_add p g g1 signo h f t ht hok s, ht]
  by_cases hs : s = signo
  · subst hs
    simp only [if_true]
  · simp only [hs, if_false]
    rw [(add_ok_frame p g g1 signo h f hok).2.2.2.2.2.2.2.1 s hs]

theorem patched_some_after_add (p : Platform) (g g1 : Globals) (signo : Int) (h : Handler)
    (f : Nat) (t : GHashTable) (ht : g.mono_ml_signal_handler_patched = some t)
    (hok : signal_add_handler p g signo h f = .ok g1) :
    ∃ t1, g1.mono_ml_signal_handler_patched = some t1 := by
  have := (add_ok_frame p g g1 signo h f hok).2.2.2.2.2.2.2.2
  rw [ht] at this
  cases hp : g1.mono_ml_signal_handler_patched with
  | none => rw [hp] at this; cases this
  | some t1 => exact ⟨t1, rfl⟩

/-- State of the table after a sequence of installations. -/
theorem add_handlers_spec (p : Platform) (calls : List AddCall) :
    ∀ (g : Globals) (t : GHashTable), g.mono_ml_signal_handler_patched = some t →
      (∀ d ∈ calls, p.sigaction_valid d.signo = true) →
      ∃ g1 t1, add_handlers p g calls = .ok g1 ∧ g1.mono_ml_signal_handler_patched = some t1
        ∧ ∀ s : Int,
          (g_hash_table_lookup (some t1) s =
            match last_call calls s with
            | some c => some { new := managed_sa p c.handler c.flags,
                               original := chained_original g s }
            | none => g_hash_table_lookup (some t) s)
          ∧ (record_count (some t) s ≤ 1 →
              record_count (some t1) s =
                if (last_call calls s).isSome then 1 else record_count (some t) s) := by
  induction calls with
  | nil =>
    intro g t ht _
    exact ⟨g, t, rfl, ht, fun s => ⟨by simp [last_call], by simp [last_call]⟩⟩
  | cons c cs ih =>
    intro g t ht hv
    have hvc : p.sigaction_valid c.signo = true := hv c (List.mem_cons_self _ _)
    have hok := signal_add_handler_eq p g c.signo c.handler c.flags hvc
    obtain ⟨ga, hga⟩ : ∃ ga, signal_add_handler p g c.signo c.handler c.flags = .ok ga :=
      ⟨_, hok⟩
    obtain ⟨ta, hta⟩ := patched_some_after_add p g ga c.signo c.handler c.flags t ht hga
    obtain ⟨g1, t1, h1, h2, h3⟩ := ih ga ta hta (fun d hd => hv d (List.mem_cons_of_mem _ hd))
    refine ⟨g1, t1, ?_, h2, ?_⟩
    · simp only [add_handlers, hga, h1]
    · intro s
      obtain ⟨h3a, h3b⟩ := h3 s
      have hl := lookup_after_add p g ga c.signo c.handler c.flags t ht hga s
      have hc := count_after_add p g ga c.signo c.handler c.flags t ht hga s
      have ho := chained_original_after_add p g ga c.signo c.handler c.flags t ht hga s
      rw [hta] at hl hc
      constructor
      · rw [h3a]
        simp only [last_call]
        cases hlc : last_call cs s with
        | some d => simp only [ho]
        | none =>
          simp only []
          rw [hl]
          by_cases hs : c.signo = s
          · have hs2 : s = c.signo := hs.symm
            simp only [hs, if_true]
            simp only [hs2, if_true, chained_original, ht, managed_sa]
          · have hs2 : ¬ s = c.signo := fun e => hs e.symm
            simp only [hs, hs2, if_false]
      · intro hle
        have hle2 : record_count (some ta) s ≤ 1 := by
          rw [hc]
          split <;> omega
        rw [h3b hle2]
        rcases Option.eq_none_or_eq_some (last_call cs s) with hlc | ⟨d, hlc⟩
        · have e : last_call (c :: cs) s = if c.signo = s then some c else none := by
            simp only [last_call, hlc]
          rw [e, hlc, hc]
          by_cases hs : c.signo = s
          · subst hs
            by_cases h0 : record_count (some t) c.signo = 0
            · simp [h0]
            · simp only [h0, and_false, if_false]
              simp
              omega
          · have hs2 : ¬ s = c.signo := fun e => hs e.symm
            simp [hs, hs2]
        · have e : last_call (c :: cs) s = some d := by
            simp only [last_call, hlc]
          rw [e, hlc]
          simp


/-! ## Invariants of initialisation and reload -/

theorem slot_congr (p : Platform) (g g1 : Globals) (n : Int) (h : Handler) (f : Nat)
    (orig : Sigaction) (h1 : g1.mono_ml_signal_handler_patched = g.mono_ml_signal_handler_patched)
    (h2 : g1.sigtable = g.sigtable) (hs : Slot p g n h f orig) : Slot p g1 n h f orig := by
  unfold Slot at *
  rw [h1, h2]
  exact hs

theorem slot_add_other (p : Platform) (g g1 : Globals) (n m : Int) (h h1 : Handler)
    (f f1 : Nat) (orig : Sigaction) (hs : Slot p g n h f orig) (hne : n ≠ m)
    (hok : signal_add_handler p g m h1 f1 = .ok g1) : Slot p g1 n h f orig := by
  obtain ⟨s1, s2, s3, s4⟩ := hs
  cases ht : g.mono_ml_signal_handler_patched with
  | none => rw [ht] at s3; simp [g_hash_table_lookup, table_lookup] at s3
  | some t =>
    have hl := lookup_after_add p g g1 m h1 f1 t ht hok n
    have hc := count_after_add p g g1 m h1 f1 t ht hok n
    have hf := (add_ok_frame p g g1 m h1 f1 hok).2.2.2.2.2.2.2.1 n hne
    rw [ht] at s2 s3
    refine ⟨s1, ?_, ?_, ?_⟩
    · rw [hc]; simp [hne, s2]
    · rw [hl]; simp [hne, s3]
    · rw [hf]; exact s4

theorem slot_add_same (p : Platform) (g g1 : Globals) (n : Int) (h : Handler) (f : Nat)
    (orig : Sigaction) (hs : Slot p g n h f orig)
    (hok : signal_add_handler p g n h f = .ok g1) : Slot p g1 n h f orig := by
  obtain ⟨s1, s2, s3, _⟩ := hs
  cases ht : g.mono_ml_signal_handler_patched with
  | none => rw [ht] at s3; simp [g_hash_table_lookup, table_lookup] at s3
  | some t =>
    have hl := lookup_after_add p g g1 n h f t ht hok n
    have hc := count_after_add p g g1 n h f t ht hok n
    have hf := (add_ok_frame p g g1 n h f hok).2.2.2.2.2.2.1
    rw [ht] at s2 s3
    refine ⟨s1, ?_, ?_, ?_⟩
    · rw [hc]; simp [s2]
    · rw [hl]; simp [s3, managed_sa]
    · rw [hf]
      rfl

theorem slot_add_fresh (p : Platform) (g g1 : Globals) (n : Int) (h : Handler) (f : Nat)
    (t : GHashTable) (ht : g.mono_ml_signal_handler_patched = some t)
    (hno : g_hash_table_lookup (some t) n = none)
    (hok : signal_add_handler p g n h f = .ok g1) : Slot p g1 n h f (g.sigtable n) := by
  have hl := lookup_after_add p g g1 n h f t ht hok n
  have hc := count_after_add p g g1 n h f t ht hok n
  have hf := (add_ok_frame p g g1 n h f hok).2.2.2.2.2.2.1
  have h0 := (lookup_none_iff_count t n).1 hno
  refine ⟨add_ok_valid p g g1 n h f hok, ?_, ?_, ?_⟩
  · rw [hc]; simp [h0]
  · rw [hl]; simp [hno, managed_sa]
  · rw [hf]
    rfl

theorem search_ok_facts (p : Platform) (tbl : Int → Sigaction) (n : Int)
    (h : mono_threads_suspend_search_alternative_signal p tbl = .ok n) :
    n ≠ -1 ∧ (tbl n).sa_sigaction = Handler.SIG_DFL := by
  obtain ⟨k, hk, _, _, h3, _⟩ := (search_ok_iff p tbl n).1 h
  subst hk
  exact ⟨by omega, h3.2⟩

theorem suspend_signal_get_memo (p : Platform) (g : Globals) (h : g.suspend_signum ≠ -1) :
    suspend_signal_get p g = .ok (g, g.suspend_signum) := by
  simp [suspend_signal_get, h]

theorem restart_signal_get_memo (p : Platform) (g : Globals) (h : g.restart_signum ≠ -1) :
    restart_signal_get p g = .ok (g, g.restart_signum) := by
  simp [restart_signal_get, h]

theorem abort_signal_get_memo (p : Platform) (g : Globals) (h : g.abort_signum ≠ -1) :
    abort_signal_get p g = .ok (g, g.abort_signum) := by
  simp [abort_signal_get, h]

theorem suspend_signal_get_fresh (p : Platform) (g g2 : Globals) (n : Int)
    (h : g.suspend_signum = -1) (hok : suspend_signal_get p g = .ok (g2, n)) :
    mono_threads_suspend_search_alternative_signal p g.sigtable = .ok n
      ∧ g2 = { g with suspend_signum := n } := by
  simp only [suspend_signal_get, h, if_true] at hok
  cases hs : mono_threads_suspend_search_alternative_signal p g.sigtable with
  | error e => rw [hs] at hok; cases hok
  | ok m =>
    rw [hs] at hok
    simp only [Except.ok.injEq, Prod.mk.injEq] at hok
    obtain ⟨h1, h2⟩ := hok
    subst h2
    exact ⟨rfl, h1.symm⟩

theorem restart_signal_get_fresh (p : Platform) (g g2 : Globals) (n : Int)
    (h : g.restart_signum = -1) (hok : restart_signal_get p g = .ok (g2, n)) :
    mono_threads_suspend_search_alternative_signal p g.sigtable = .ok n
      ∧ g2 = { g with restart_signum := n } := by
  simp only [restart_signal_get, h, if_true] at hok
  cases hs : mono_threads_suspend_search_alternative_signal p g.sigtable with
  | error e => rw [hs] at hok; cases hok
  | ok m =>
    rw [hs] at hok
    simp only [Except.ok.injEq, Prod.mk.injEq] at hok
    obtain ⟨h1, h2⟩ := hok
    subst h2
    exact ⟨rfl, h1.symm⟩

theorem abort_signal_get_fresh (p : Platform) (g g2 : Globals) (n : Int)
    (h : g.abort_signum = -1) (hok : abort_signal_get p g = .ok (g2, n)) :
    mono_threads_suspend_search_alternative_signal p g.sigtable = .ok n
      ∧ g2 = { g with abort_signum := n } := by
  simp only [abort_signal_get, h, if_true] at hok
  cases hs : mono_threads_suspend_search_alternative_signal p g.sigtable with
  | error e => rw [hs] at hok; cases hok
  | ok m =>
    rw [hs] at hok
    simp only [Except.ok.injEq, Prod.mk.injEq] at hok
    obtain ⟨h1, h2⟩ := hok
    subst h2
    exact ⟨rfl, h1.symm⟩

/-- The steps of a completed initialisation. -/
theorem init_signals_steps (p : Platform) (g0 gF : Globals)
    (hok : mono_threads_suspend_init_signals p g0 = .ok gF) :
    ∃ g2 n1 g4 g5 n2 g9 g10 n3 g12,
      suspend_signal_get p
          (if g0.mono_ml_signal_handler_patched.isNone then
            { g0 with mono_ml_signal_handler_patched := some [] } else g0) = .ok (g2, n1)
      ∧ signal_add_handler p { g2 with suspend_signal_num := n1 } n1
          Handler.suspend_signal_handler p.SA_RESTART = .ok g4
      ∧ restart_signal_get p g4 = .ok (g5, n2)
      ∧ signal_add_handler p
          { g5 with restart_signal_num := n2,
                    suspend_signal_mask := sigdelset (sigfillset p) n2,
                    suspend_ack_signal_mask := sigaddset sigemptyset n2 } n2
          Handler.restart_signal_handler p.SA_RESTART = .ok g9
      ∧ abort_signal_get p g9 = .ok (g10, n3)
      ∧ signal_add_handler p { g10 with abort_signal_num := n3 } n3
          Handler.suspend_signal_handler 0 = .ok g12
      ∧ gF = { g12 with
          blocked := (sig_unblock g12.blocked
            (sigaddset (sigaddset (sigaddset sigemptyset g4.suspend_signal_num)
              g9.restart_signal_num) g12.abort_signal_num)) } := by
  unfold mono_threads_suspend_init_signals at hok
  simp only [] at hok
  split at hok
  · cases hok
  · rename_i g2 n1 h1
    split at hok
    · cases hok
    · rename_i g4 h2
      split at hok
      · cases hok
      · rename_i g5 n2 h3
        split at hok
        · cases hok
        · rename_i g9 h4
          split at hok
          · cases hok
          · rename_i g10 n3 h5
            split at hok
            · cases hok
            · rename_i g12 h6
              injection hok with hok
              exact ⟨g2, n1, g4, g5, n2, g9, g10, n3, g12, h1, h2, h3, h4, h5, h6, hok.symm⟩

/-- The result of an initialisation whose steps all succeed. -/
theorem init_signals_of_steps (p : Platform) (g0 g2 g4 g5 g9 g10 g12 : Globals)
    (n1 n2 n3 : Int)
    (h1 : suspend_signal_get p
          (if g0.mono_ml_signal_handler_patched.isNone then
            { g0 with mono_ml_signal_handler_patched := some [] } else g0) = .ok (g2, n1))
    (h2 : signal_add_handler p { g2 with suspend_signal_num := n1 } n1
          Handler.suspend_signal_handler p.SA_RESTART = .ok g4)
    (h3 : restart_signal_get p g4 = .ok (g5, n2))
    (h4 : signal_add_handler p
          { g5 with restart_signal_num := n2,
                    suspend_signal_mask := sigdelset (sigfillset p) n2,
                    suspend_ack_signal_mask := sigaddset sigemptyset n2 } n2
          Handler.restart_signal_handler p.SA_RESTART = .ok g9)
    (h5 : abort_signal_get p g9 = .ok (g10, n3))
    (h6 : signal_add_handler p { g10 with abort_signal_num := n3 } n3
          Handler.suspend_signal_handler 0 = .ok g12) :
    mono_threads_suspend_init_signals p g0 = .ok
      { g12 with
          blocked := (sig_unblock g12.blocked
            (sigaddset (sigaddset (sigaddset sigemptyset g4.suspend_signal_num)
              g9.restart_signal_num) g12.abort_signal_num)) } := by
  unfold mono_threads_suspend_init_signals
  simp only [h1, h2, h3, h4, h5, h6]

theorem lookup_none_after_add (p : Platform) (g g1 : Globals) (m : Int) (h : Handler) (f : Nat)
    (t : GHashTable) (ht : g.mono_ml_signal_handler_patched = some t)
    (hok : signal_add_handler p g m h f = .ok g1) (k : Int) (hne : k ≠ m)
    (hno : g_hash_table_lookup (some t) k = none) :
    ∃ t1, g1.mono_ml_signal_handler_patched = some t1
      ∧ g_hash_table_lookup (some t1) k = none := by
  obtain ⟨t1, ht1⟩ := patched_some_after_add p g g1 m h f t ht hok
  refine ⟨t1, ht1, ?_⟩
  have hl := lookup_after_add p g g1 m h f t ht hok k
  rw [ht1] at hl
  rw [hl]
  simp [hne, hno]

/-- The first initialisation, from the variables as the image sets them,
establishes the installed state. -/
theorem installed_after_init (p : Platform) (tbl : Int → Sigaction) (b : SigSet)
    (gF : Globals)
    (hok : mono_threads_suspend_init_signals p (Globals.startup tbl b) = .ok gF) :
    Installed p tbl gF := by
  obtain ⟨g2, n1, g4, g5, n2, g9, g10, n3, g12, h1, h2, h3, h4, h5, h6, hF⟩ :=
    init_signals_steps p _ gF hok
  -- suspend
  simp only [Globals.startup, Option.isNone_none, if_true] at h1
  obtain ⟨hs1, hg2⟩ := suspend_signal_get_fresh p _ g2 n1 rfl h1
  subst hg2
  obtain ⟨hn1, _⟩ := search_ok_facts p _ n1 hs1
  have slot1 := slot_add_fresh p _ g4 n1 _ _ [] rfl (by simp [g_hash_table_lookup, table_lookup]) h2
  obtain ⟨f1a, f1b, f1c, f1d, f1e, f1f, _, f1h, _⟩ := add_ok_frame p _ g4 n1 _ _ h2
  simp only [] at f1a f1b f1c f1d f1e f1f f1h slot1
  obtain ⟨t4, ht4⟩ := patched_some_after_add p _ g4 n1 _ _ [] rfl h2
  -- restart
  obtain ⟨hs2, hg5⟩ := restart_signal_get_fresh p g4 g5 n2 f1e h3
  subst hg5
  obtain ⟨hn2, hd2⟩ := search_ok_facts p _ n2 hs2
  have hne21 : n2 ≠ n1 := by
    intro e
    rw [e, slot1.2.2.2] at hd2
    cases hd2
  obtain ⟨t4b, ht4b, hno2⟩ := lookup_none_after_add p _ g4 n1 _ _ [] rfl h2 n2 hne21
    (by simp [g_hash_table_lookup, table_lookup])
  have slot2 := slot_add_fresh p _ g9 n2 _ _ t4b (by exact ht4b) hno2 h4
  have slot1b : Slot p g9 n1 Handler.suspend_signal_handler p.SA_RESTART (tbl n1) :=
    slot_add_other p _ g9 n1 n2 _ _ _ _ _
      (by exact slot_congr p g4 _ n1 _ _ _ rfl rfl slot1) (Ne.symm hne21) h4
  obtain ⟨f2a, f2b, f2c, f2d, f2e, f2f, _, f2h, _⟩ := add_ok_frame p _ g9 n2 _ _ h4
  simp only [] at f2a f2b f2c f2d f2e f2f f2h slot2
  -- abort
  obtain ⟨hs3, hg10⟩ := abort_signal_get_fresh p g9 g10 n3 (by rw [f2f, f1f]) h5
  subst hg10
  obtain ⟨hn3, hd3⟩ := search_ok_facts p _ n3 hs3
  have hne31 : n3 ≠ n1 := by
    intro e
    rw [e, slot1b.2.2.2] at hd3
    cases hd3
  have hne32 : n3 ≠ n2 := by
    intro e
    rw [e, slot2.2.2.2] at hd3
    cases hd3
  have hno3a : g_hash_table_lookup (some t4b) n3 = none := by
    have hl := lookup_after_add p _ g4 n1 _ _ [] rfl h2 n3
    rw [ht4b] at hl
    rw [hl]
    simp [hne31, g_hash_table_lookup, table_lookup]
  obtain ⟨t9, ht9, hno3⟩ := lookup_none_after_add p _ g9 n2 _ _ t4b (by exact ht4b) h4 n3 hne32 hno3a
  have slot3 := slot_add_fresh p _ g12 n3 _ _ t9 (by exact ht9) hno3 h6
  have slot1c : Slot p g12 n1 Handler.suspend_signal_handler p.SA_RESTART (tbl n1) :=
    slot_add_other p _ g12 n1 n3 _ _ _ _ _
      (by exact slot_congr p g9 _ n1 _ _ _ rfl rfl slot1b) (Ne.symm hne31) h6
  have slot2c : Slot p g12 n2 Handler.restart_signal_handler p.SA_RESTART (g4.sigtable n2) :=
    slot_add_other p _ g12 n2 n3 _ _ _ _ _
      (by exact slot_congr p g9 _ n2 _ _ _ rfl rfl slot2) (Ne.symm hne32) h6
  obtain ⟨f3a, f3b, f3c, f3d, f3e, f3f, _, f3h, _⟩ := add_ok_frame p _ g12 n3 _ _ h6
  simp only [] at f3a f3b f3c f3d f3e f3f f3h slot3
  -- originals are the entries of the start table
  have ho2 : g4.sigtable n2 = tbl n2 := f1h n2 hne21
  have ho3 : g9.sigtable n3 = tbl n3 := by
    rw [f2h n3 hne32]
    exact f1h n3 hne31
  rw [ho2] at slot2c
  rw [ho3] at slot3
  subst hF
  have e1 : g12.suspend_signal_num = n1 := by rw [f3a, f2a, f1a]
  have e2 : g12.restart_signal_num = n2 := by rw [f3b, f2b]
  have e3 : g12.abort_signal_num = n3 := by rw [f3c]
  have e4 : g12.suspend_signum = n1 := by rw [f3d, f2d, f1d]
  have e5 : g12.restart_signum = n2 := by rw [f3e, f2e]
  have e6 : g12.abort_signum = n3 := by rw [f3f]
  unfold Installed
  simp only [e1, e2, e3, e4, e5, e6]
  refine ⟨⟨trivial, hn1⟩, ⟨trivial, hn2⟩, ⟨trivial, hn3⟩,
    ⟨Ne.symm hne21, Ne.symm hne31, Ne.symm hne32⟩, ?_, ?_, ?_⟩
  · exact slot_congr p g12 _ n1 _ _ _ rfl rfl slot1c
  · exact slot_congr p g12 _ n2 _ _ _ rfl rfl slot2c
  · exact slot_congr p g12 _ n3 _ _ _ rfl rfl slot3

theorem slot_add_any (p : Platform) (g gx g1 : Globals) (n m : Int) (h h1 : Handler)
    (f f1 : Nat) (orig : Sigaction)
    (hpx : gx.mono_ml_signal_handler_patched = g.mono_ml_signal_handler_patched)
    (htx : gx.sigtable = g.sigtable)
    (hs : Slot p g n h f orig) (hc : n = m → h = h1 ∧ f = f1)
    (hok : signal_add_handler p gx m h1 f1 = .ok g1) : Slot p g1 n h f orig := by
  have hsx : Slot p gx n h f orig := slot_congr p g gx n h f orig hpx htx hs
  by_cases hnm : n = m
  · obtain ⟨e1, e2⟩ := hc hnm
    subst hnm e1 e2
    exact slot_add_same p gx g1 n h f orig hsx hok
  · exact slot_add_other p gx g1 n m h h1 f f1 orig hsx hnm hok

theorem add_ok_of_valid (p : Platform) (g : Globals) (m : Int) (h : Handler) (f : Nat)
    (hv : p.sigaction_valid m = true) : ∃ g1, signal_add_handler p g m h f = .ok g1 :=
  ⟨_, signal_add_handler_eq p g m h f hv⟩

/-- A reload in the installed state returns, keeps the state installed and
keeps the three numbers. -/
theorem installed_reload (p : Platform) (tbl : Int → Sigaction) (g : Globals)
    (hi : Installed p tbl g) :
    ∃ g1, mono_melonloader_thread_suspend_reload p g = .ok g1 ∧ Installed p tbl g1
      ∧ g1.suspend_signal_num = g.suspend_signal_num
      ∧ g1.restart_signal_num = g.restart_signal_num
      ∧ g1.abort_signal_num = g.abort_signal_num := by
  obtain ⟨⟨a1, a2⟩, ⟨b1, b2⟩, ⟨c1, c2⟩, ⟨d1, d2, d3⟩, s1, s2, s3⟩ := hi
  obtain ⟨ga, ha⟩ := add_ok_of_valid p g g.suspend_signal_num Handler.suspend_signal_handler
    p.SA_RESTART s1.1
  obtain ⟨fa1, fa2, fa3, fa4, fa5, fa6, _⟩ := add_ok_frame p _ ga _ _ _ ha
  have s1a := slot_add_any p g g ga _ _ _ _ _ _ _ rfl rfl s1 (fun _ => ⟨rfl, rfl⟩) ha
  have s2a := slot_add_any p g g ga _ _ _ _ _ _ _ rfl rfl s2 (fun e => absurd e.symm d1) ha
  have s3a := slot_add_any p g g ga _ _ _ _ _ _ _ rfl rfl s3 (fun e => absurd e.symm d2) ha
  obtain ⟨gb, hb⟩ := add_ok_of_valid p ga ga.restart_signal_num Handler.restart_signal_handler
    p.SA_RESTART (by rw [fa2]; exact s2.1)
  obtain ⟨fb1, fb2, fb3, fb4, fb5, fb6, _⟩ := add_ok_frame p _ gb _ _ _ hb
  have hb0 := hb
  rw [fa2] at hb
  have s1b := slot_add_any p ga ga gb _ _ _ _ _ _ _ rfl rfl s1a (fun e => absurd e d1) hb
  have s2b := slot_add_any p ga ga gb _ _ _ _ _ _ _ rfl rfl s2a (fun _ => ⟨rfl, rfl⟩) hb
  have s3b := slot_add_any p ga ga gb _ _ _ _ _ _ _ rfl rfl s3a (fun e => absurd e.symm d3) hb
  obtain ⟨gc, hc⟩ := add_ok_of_valid p gb gb.abort_signal_num Handler.suspend_signal_handler
    0 (by rw [fb3, fa3]; exact s3.1)
  obtain ⟨fc1, fc2, fc3, fc4, fc5, fc6, _⟩ := add_ok_frame p _ gc _ _ _ hc
  have hc0 := hc
  rw [fb3, fa3] at hc
  have s1c := slot_add_any p gb gb gc _ _ _ _ _ _ _ rfl rfl s1b (fun e => absurd e d2) hc
  have s2c := slot_add_any p gb gb gc _ _ _ _ _ _ _ rfl rfl s2b (fun e => absurd e d3) hc
  have s3c := slot_add_any p gb gb gc _ _ _ _ _ _ _ rfl rfl s3b (fun _ => ⟨rfl, rfl⟩) hc
  have e1 : gc.suspend_signal_num = g.suspend_signal_num := by rw [fc1, fb1, fa1]
  have e2 : gc.restart_signal_num = g.restart_signal_num := by rw [fc2, fb2, fa2]
  have e3 : gc.abort_signal_num = g.abort_signal_num := by rw [fc3, fb3, fa3]
  have e4 : gc.suspend_signum = g.suspend_signum := by rw [fc4, fb4, fa4]
  have e5 : gc.restart_signum = g.restart_signum := by rw [fc5, fb5, fa5]
  have e6 : gc.abort_signum = g.abort_signum := by rw [fc6, fb6, fa6]
  refine ⟨gc, ?_, ?_, e1, e2, e3⟩
  · unfold mono_melonloader_thread_suspend_reload
    simp only [ha, hb0, hc0]
  · unfold Installed
    rw [e1, e2, e3, e4, e5, e6]
    exact ⟨⟨a1, a2⟩, ⟨b1, b2⟩, ⟨c1, c2⟩, ⟨d1, d2, d3⟩, s1c, s2c, s3c⟩

/-- An initialisation in the installed state returns, keeps the state
installed and keeps the three numbers. -/
theorem installed_init (p : Platform) (tbl : Int → Sigaction) (g : Globals)
    (hi : Installed p tbl g) :
    ∃ g1, mono_threads_suspend_init_signals p g = .ok g1 ∧ Installed p tbl g1
      ∧ g1.suspend_signal_num = g.suspend_signal_num
      ∧ g1.restart_signal_num = g.restart_signal_num
      ∧ g1.abort_signal_num = g.abort_signal_num := by
  obtain ⟨⟨a1, a2⟩, ⟨b1, b2⟩, ⟨c1, c2⟩, ⟨d1, d2, d3⟩, s1, s2, s3⟩ := hi
  have hsome : g.mono_ml_signal_handler_patched.isNone = false := by
    cases hp : g.mono_ml_signal_handler_patched with
    | none =>
      have := s1.2.2.1
      rw [hp] at this
      simp [g_hash_table_lookup, table_lookup] at this
    | some t => rfl
  have h1 : suspend_signal_get p
      (if g.mono_ml_signal_handler_patched.isNone then
        { g with mono_ml_signal_handler_patched := some [] } else g)
      = .ok (g, g.suspend_signal_num) := by
    rw [hsome]
    simp only [Bool.false_eq_true, if_false]
    rw [suspend_signal_get_memo p g (by rw [a1]; exact a2), a1]
  -- suspend
  obtain ⟨g4, h2⟩ := add_ok_of_valid p { g with suspend_signal_num := g.suspend_signal_num }
    g.suspend_signal_num Handler.suspend_signal_handler p.SA_RESTART s1.1
  obtain ⟨fa1, fa2, fa3, fa4, fa5, fa6, _⟩ := add_ok_frame p _ g4 _ _ _ h2
  simp only [] at fa1 fa2 fa3 fa4 fa5 fa6
  have s1a : Slot p g4 g.suspend_signal_num Handler.suspend_signal_handler p.SA_RESTART
      (tbl g.suspend_signal_num) :=
    slot_add_any p g _ g4 _ _ _ _ _ _ _ (by rfl) (by rfl) s1 (fun _ => ⟨rfl, rfl⟩) h2
  have s2a : Slot p g4 g.restart_signal_num Handler.restart_signal_handler p.SA_RESTART
      (tbl g.restart_signal_num) :=
    slot_add_any p g _ g4 _ _ _ _ _ _ _ (by rfl) (by rfl) s2 (fun e => absurd e.symm d1) h2
  have s3a : Slot p g4 g.abort_signal_num Handler.suspend_signal_handler 0
      (tbl g.abort_signal_num) :=
    slot_add_any p g _ g4 _ _ _ _ _ _ _ (by rfl) (by rfl) s3 (fun e => absurd e.symm d2) h2
  -- restart
  have h3 : restart_signal_get p g4 = .ok (g4, g.restart_signal_num) := by
    rw [restart_signal_get_memo p g4 (by rw [fa5, b1]; exact b2), fa5, b1]
  obtain ⟨g9, h4⟩ := add_ok_of_valid p
    { g4 with restart_signal_num := g.restart_signal_num,
              suspend_signal_mask := sigdelset (sigfillset p) g.restart_signal_num,
              suspend_ack_signal_mask := sigaddset sigemptyset g.restart_signal_num }
    g.restart_signal_num Handler.restart_signal_handler p.SA_RESTART s2.1
  obtain ⟨fb1, fb2, fb3, fb4, fb5, fb6, _⟩ := add_ok_frame p _ g9 _ _ _ h4
  simp only [] at fb1 fb2 fb3 fb4 fb5 fb6
  have s1b : Slot p g9 g.suspend_signal_num Handler.suspend_signal_handler p.SA_RESTART
      (tbl g.suspend_signal_num) :=
    slot_add_any p g4 _ g9 _ _ _ _ _ _ _ (by rfl) (by rfl) s1a (fun e => absurd e d1) h4
  have s2b : Slot p g9 g.restart_signal_num Handler.restart_signal_handler p.SA_RESTART
      (tbl g.restart_signal_num) :=
    slot_add_any p g4 _ g9 _ _ _ _ _ _ _ (by rfl) (by rfl) s2a (fun _ => ⟨rfl, rfl⟩) h4
  have s3b : Slot p g9 g.abort_signal_num Handler.suspend_signal_handler 0
      (tbl g.abort_signal_num) :=
    slot_add_any p g4 _ g9 _ _ _ _ _ _ _ (by rfl) (by rfl) s3a (fun e => absurd e.symm d3) h4
  -- abort
  have h5 : abort_signal_get p g9 = .ok (g9, g.abort_signal_num) := by
    rw [abort_signal_get_memo p g9 (by rw [fb6, fa6, c1]; exact c2), fb6, fa6, c1]
  obtain ⟨g12, h6⟩ := add_ok_of_valid p { g9 with abort_signal_num := g.abort_signal_num }
    g.abort_signal_num Handler.suspend_signal_handler 0 s3.1
  obtain ⟨fc1, fc2, fc3, fc4, fc5, fc6, _⟩ := add_ok_frame p _ g12 _ _ _ h6
  simp only [] at fc1 fc2 fc3 fc4 fc5 fc6
  have s1c : Slot p g12 g.suspend_signal_num Handler.suspend_signal_handler p.SA_RESTART
      (tbl g.suspend_signal_num) :=
    slot_add_any p g9 _ g12 _ _ _ _ _ _ _ (by rfl) (by rfl) s1b (fun e => absurd e d2) h6
  have s2c : Slot p g12 g.restart_signal_num Handler.restart_signal_handler p.SA_RESTART
      (tbl g.restart_signal_num) :=
    slot_add_any p g9 _ g12 _ _ _ _ _ _ _ (by rfl) (by rfl) s2b (fun e => absurd e d3) h6
  have s3c : Slot p g12 g.abort_signal_num Handler.suspend_signal_handler 0
      (tbl g.abort_signal_num) :=
    slot_add_any p g9 _ g12 _ _ _ _ _ _ _ (by rfl) (by rfl) s3b (fun _ => ⟨rfl, rfl⟩) h6
  have hres := init_signals_of_steps p g g g4 g4 g9 g9 g12 _ _ _ h1 h2 h3 h4 h5 h6
  have e1 : g12.suspend_signal_num = g.suspend_signal_num := by rw [fc1, fb1, fa1]
  have e2 : g12.restart_signal_num = g.restart_signal_num := by rw [fc2, fb2]
  have e3 : g12.abort_signal_num = g.abort_signal_num := by rw [fc3]
  have e4 : g12.suspend_signum = g.suspend_signal_num := by rw [fc4, fb4, fa4, a1]
  have e5 : g12.restart_signum = g.restart_signal_num := by rw [fc5, fb5, fa5, b1]
  have e6 : g12.abort_signum = g.abort_signal_num := by rw [fc6, fb6, fa6, c1]
  refine ⟨_, hres, ?_, e1, e2, e3⟩
  unfold Installed
  simp only [e1, e2, e3, e4, e5, e6]
  refine ⟨⟨trivial, a2⟩, ⟨trivial, b2⟩, ⟨trivial, c2⟩, ⟨d1, d2, d3⟩, ?_, ?_, ?_⟩
  · exact slot_congr p g12 _ _ _ _ _ rfl rfl s1c
  · exact slot_congr p g12 _ _ _ _ _ rfl rfl s2c
  · exact slot_congr p g12 _ _ _ _ _ rfl rfl s3c

/-- Any further initialisations and reloads return and keep the installed
state and the three numbers. -/
theorem installed_run_ops (p : Platform) (tbl : Int → Sigaction) (ops : List Op) :
    ∀ g : Globals, Installed p tbl g →
      ∃ g1, run_ops p g ops = .ok g1 ∧ Installed p tbl g1
        ∧ g1.suspend_signal_num = g.suspend_signal_num
        ∧ g1.restart_signal_num = g.restart_signal_num
        ∧ g1.abort_signal_num = g.abort_signal_num := by
  induction ops with
  | nil =>
    intro g hi
    exact ⟨g, rfl, hi, rfl, rfl, rfl⟩
  | cons o os ih =>
    intro g hi
    have hstep : ∃ ga, o.run p g = .ok ga ∧ Installed p tbl ga
        ∧ ga.suspend_signal_num = g.suspend_signal_num
        ∧ ga.restart_signal_num = g.restart_signal_num
        ∧ ga.abort_signal_num = g.abort_signal_num := by
      cases o with
      | init_signals => exact installed_init p tbl g hi
      | reload => exact installed_reload p tbl g hi
    obtain ⟨ga, ha, hia, x1, x2, x3⟩ := hstep
    obtain ⟨g1, h1, hi1, y1, y2, y3⟩ := ih ga hia
    refine ⟨g1, ?_, hi1, y1.trans x1, y2.trans x2, y3.trans x3⟩
    simp only [run_ops, ha, h1]

/-! ## Claims on installation and signal numbers -/

/-- C1: (1) from any state whose table exists and holds no record for `s`, and
for every sequence of installations (for `s` and for other numbers, each on a
number the kernel accepts) with at least one for `s`: all of them return, the
table then holds exactly one record for `s`, whose `original` is the
disposition the kernel held for `s` at the start, the one the first call for
`s` displaced, and whose `new` has the handler and the flags
`SA_SIGINFO | flags` of the latest call for `s`. (2) After the first
initialisation and any further initialisations and reloads, each of the three
signal numbers has exactly one record, whose `original` is the entry of the
kernel table before the initialisation and whose `new` is the runtime handler
of that number. -/
theorem signal_add_handler_chains_once (p : Platform) :
    (∀ (g : Globals) (t : GHashTable) (calls : List AddCall) (s : Int) (c : AddCall),
      g.mono_ml_signal_handler_patched = some t →
      g_hash_table_contains (some t) s = false →
      (∀ d ∈ calls, p.sigaction_valid d.signo = true) →
      last_call calls s = some c →
      ∃ g1, add_handlers p g calls = .ok g1
        ∧ record_count g1.mono_ml_signal_handler_patched s = 1
        ∧ g_hash_table_lookup g1.mono_ml_signal_handler_patched s
            = some { new := { sa_sigaction := c.handler, sa_mask := sigfillset p,
                              sa_flags := p.SA_SIGINFO ||| c.flags },
                     original := g.sigtable s })
    ∧ (∀ (tbl : Int → Sigaction) (b : SigSet) (g1 g2 : Globals) (ops : List Op),
      mono_threads_suspend_init_signals p (Globals.startup tbl b) = .ok g1 →
      run_ops p g1 ops = .ok g2 →
      (record_count g2.mono_ml_signal_handler_patched g2.suspend_signal_num = 1
        ∧ g_hash_table_lookup g2.mono_ml_signal_handler_patched g2.suspend_signal_num
            = some { new := { sa_sigaction := Handler.suspend_signal_handler,
                              sa_mask := sigfillset p,
                              sa_flags := p.SA_SIGINFO ||| p.SA_RESTART },
                     original := tbl g2.suspend_signal_num })
      ∧ (record_count g2.mono_ml_signal_handler_patched g2.restart_signal_num = 1
        ∧ g_hash_table_lookup g2.mono_ml_signal_handler_patched g2.restart_signal_num
            = some { new := { sa_sigaction := Handler.restart_signal_handler,
                              sa_mask := sigfillset p,
                              sa_flags := p.SA_SIGINFO ||| p.SA_RESTART },
                     original := tbl g2.restart_signal_num })
      ∧ (record_count g2.mono_ml_signal_handler_patched g2.abort_signal_num = 1
        ∧ g_hash_table_lookup g2.mono_ml_signal_handler_patched g2.abort_signal_num
            = some { new := { sa_sigaction := Handler.suspend_signal_handler,
                              sa_mask := sigfillset p,
                              sa_flags := p.SA_SIGINFO ||| 0 },
                     original := tbl g2.abort_signal_num })) := by
  constructor
  · intro g t calls s c ht hfresh hvalid hlast
    obtain ⟨g1, t1, h1, h2, h3⟩ := add_handlers_spec p calls g t ht hvalid
    obtain ⟨h3a, h3b⟩ := h3 s
    have hnone : g_hash_table_lookup (some t) s = none := by
      simp only [g_hash_table_contains] at hfresh
      cases hl : g_hash_table_lookup (some t) s with
      | none => rfl
      | some m => rw [hl] at hfresh; cases hfresh
    have hcount : record_count (some t) s = 0 := (lookup_none_iff_count t s).1 hnone
    refine ⟨g1, h1, ?_, ?_⟩
    · rw [h2, h3b (by omega), hlast]
      simp
    · rw [h2, h3a, hlast]
      simp only [chained_original, ht, hnone, managed_sa]
  · intro tbl b g1 g2 ops hinit hops
    have hi := installed_after_init p tbl b g1 hinit
    obtain ⟨g3, h3, hi3, _⟩ := installed_run_ops p tbl ops g1 hi
    rw [hops] at h3
    injection h3 with h3
    subst h3
    obtain ⟨_, _, _, _, s1, s2, s3⟩ := hi3
    exact ⟨⟨s1.2.1, s1.2.2.1⟩, ⟨s2.2.1, s2.2.2.1⟩, ⟨s3.2.1, s3.2.2.1⟩⟩

/-- C1, witness: on the Linux numbers, three installations from a fresh table,
the first and the last for signal number 40. -/
theorem signal_add_handler_chains_once_witness :
    ∃ g1, add_handlers linux fresh_table three_calls = .ok g1
      ∧ record_count g1.mono_ml_signal_handler_patched 40 = 1
      ∧ g_hash_table_lookup g1.mono_ml_signal_handler_patched 40
          = some { new := { sa_sigaction := Handler.suspend_signal_handler,
                            sa_mask := sigfillset linux,
                            sa_flags := linux.SA_SIGINFO ||| 0x10000000 },
                   original := fresh_table.sigtable 40 } :=
  (signal_add_handler_chains_once linux).1 fresh_table [] three_calls 40
    { signo := 40, handler := Handler.suspend_signal_handler, flags := 0x10000000 }
    rfl rfl (by decide) rfl

/-- C4: when the first initialisation completes, from the variables as the
image sets them and any kernel table, the suspend, restart and abort numbers
are pairwise distinct; every further sequence of initialisations and reloads
completes, and after it the three getters return the same numbers as before. -/
theorem signal_numbers_distinct_and_stable (p : Platform) (tbl : Int → Sigaction)
    (b : SigSet) (g1 : Globals)
    (hinit : mono_threads_suspend_init_signals p (Globals.startup tbl b) = .ok g1) :
    (g1.suspend_signal_num ≠ g1.restart_signal_num
      ∧ g1.suspend_signal_num ≠ g1.abort_signal_num
      ∧ g1.restart_signal_num ≠ g1.abort_signal_num)
    ∧ (mono_threads_suspend_get_suspend_signal g1 = .ok g1.suspend_signal_num
      ∧ mono_threads_suspend_get_restart_signal g1 = .ok g1.restart_signal_num
      ∧ mono_threads_suspend_get_abort_signal g1 = .ok g1.abort_signal_num)
    ∧ ∀ ops : List Op, ∃ g2, run_ops p g1 ops = .ok g2
        ∧ mono_threads_suspend_get_suspend_signal g2 = .ok g1.suspend_signal_num
        ∧ mono_threads_suspend_get_restart_signal g2 = .ok g1.restart_signal_num
        ∧ mono_threads_suspend_get_abort_signal g2 = .ok g1.abort_signal_num := by
  have hi := installed_after_init p tbl b g1 hinit
  obtain ⟨⟨_, a2⟩, ⟨_, b2⟩, ⟨_, c2⟩, hd, _⟩ := id hi
  refine ⟨hd, ⟨?_, ?_, ?_⟩, ?_⟩
  · simp [mono_threads_suspend_get_suspend_signal, a2]
  · simp [mono_threads_suspend_get_restart_signal, b2]
  · simp [mono_threads_suspend_get_abort_signal, c2]
  · intro ops
    obtain ⟨g2, h2, _, e1, e2, e3⟩ := installed_run_ops p tbl ops g1 hi
    refine ⟨g2, h2, ?_, ?_, ?_⟩
    · simp [mono_threads_suspend_get_suspend_signal, e1, a2]
    · simp [mono_threads_suspend_get_restart_signal, e2, b2]
    · simp [mono_threads_suspend_get_abort_signal, e3, c2]

/-- C4, witness: the first initialisation on the Linux numbers with every
disposition default completes, with the numbers 35, 36 and 37. -/
theorem signal_numbers_distinct_and_stable_witness :
    ∃ g1, mono_threads_suspend_init_signals linux (Globals.startup all_default sigemptyset)
        = .ok g1
      ∧ (g1.suspend_signal_num = 35 ∧ g1.restart_signal_num = 36 ∧ g1.abort_signal_num = 37)
      ∧ (g1.suspend_signal_num ≠ g1.restart_signal_num
        ∧ g1.suspend_signal_num ≠ g1.abort_signal_num
        ∧ g1.restart_signal_num ≠ g1.abort_signal_num) := by
  cases h : mono_threads_suspend_init_signals linux (Globals.startup all_default sigemptyset) with
  | error e =>
    have hb : (mono_threads_suspend_init_signals linux
        (Globals.startup all_default sigemptyset)).toBool = true := by rfl
    rw [h] at hb
    cases hb
  | ok g1 =>
    have hn : (match mono_threads_suspend_init_signals linux
        (Globals.startup all_default sigemptyset) with
      | .ok g => decide (g.suspend_signal_num = 35 ∧ g.restart_signal_num = 36
          ∧ g.abort_signal_num = 37)
      | .error _ => false) = true := by rfl
    rw [h] at hn
    exact ⟨g1, rfl, of_decide_eq_true hn,
      (signal_numbers_distinct_and_stable linux all_default sigemptyset g1 h).1⟩

/-- C5, counterexample: on Linux with the GNU C library, after the suspend
handler has been installed for signal number 40 of a fresh table with no extra
flags, the flags of the kernel's entry are `0x04000004`, not the bitwise OR `4`
of `SA_SIGINFO | 0` and the flags of the displaced disposition, and the mask of
the entry does not hold the signals 9, 19, 32 and 33: it does not block all
signals. -/
theorem kernel_entry_not_as_passed :
    signal_add_handler linux fresh_table 40 Handler.suspend_signal_handler 0
      = .ok after_install_40
    ∧ (after_install_40.sigtable 40).sa_flags = 0x04000004
    ∧ (linux.SA_SIGINFO ||| 0) ||| (fresh_table.sigtable 40).sa_flags = 4
    ∧ (after_install_40.sigtable 40).sa_flags
        ≠ (linux.SA_SIGINFO ||| 0) ||| (fresh_table.sigtable 40).sa_flags
    ∧ sigismember (after_install_40.sigtable 40).sa_mask 9 = false
    ∧ sigismember (after_install_40.sigtable 40).sa_mask 19 = false
    ∧ sigismember (after_install_40.sigtable 40).sa_mask 32 = false
    ∧ sigismember (after_install_40.sigtable 40).sa_mask 33 = false := by
  refine ⟨rfl, ?_, ?_, ?_, ?_, ?_, ?_, ?_⟩ <;> decide

/-- C5, amended: (1) an installation on a number the kernel accepts returns,
and the kernel's entry for that number then has the trampoline as handler; the
disposition the call hands to `sigaction` has the mask `sigfillset` builds,
which holds every signal but those the C library keeps for itself, and the
flags `(SA_SIGINFO | f) | flags of the disposition this call displaced`, and
the entry holds what the platform keeps of that mask and of those flags.
(2) After the first initialisation and any further initialisations and
reloads, the entries of the suspend, restart and abort numbers have the
trampoline as handler. -/
theorem os_disposition_is_trampoline (p : Platform) :
    (∀ (g : Globals) (s : Int) (h : Handler) (f : Nat),
      p.sigaction_valid s = true →
      ∃ g1, signal_add_handler p g s h f = .ok g1
        ∧ (g1.sigtable s).sa_sigaction = Handler.ml_v2_signal_generic_handler
        ∧ g1.sigtable s = kernel_entry p
            { sa_sigaction := Handler.ml_v2_signal_generic_handler, sa_mask := sigfillset p,
              sa_flags := (p.SA_SIGINFO ||| f) ||| (g.sigtable s).sa_flags }
        ∧ (g1.sigtable s).sa_mask = p.kernel_mask (sigfillset p)
        ∧ (g1.sigtable s).sa_flags
            = p.kernel_flags ((p.SA_SIGINFO ||| f) ||| (g.sigtable s).sa_flags)
        ∧ (∀ n : Int, sigismember (sigfillset p) n = true ↔ n ∉ p.libc_reserved))
    ∧ (∀ (tbl : Int → Sigaction) (b : SigSet) (g1 g2 : Globals) (ops : List Op),
      mono_threads_suspend_init_signals p (Globals.startup tbl b) = .ok g1 →
      run_ops p g1 ops = .ok g2 →
      (g2.sigtable g2.suspend_signal_num).sa_sigaction = Handler.ml_v2_signal_generic_handler
      ∧ (g2.sigtable g2.restart_signal_num).sa_sigaction
          = Handler.ml_v2_signal_generic_handler
      ∧ (g2.sigtable g2.abort_signal_num).sa_sigaction
          = Handler.ml_v2_signal_generic_handler) := by
  constructor
  · intro g s h f hv
    obtain ⟨g1, h1⟩ := add_ok_of_valid p g s h f hv
    have hf := (add_ok_frame p g g1 s h f h1).2.2.2.2.2.2.1
    refine ⟨g1, h1, ?_, hf, ?_, ?_, ?_⟩
    · rw [hf]
      rfl
    · rw [hf]
      rfl
    · rw [hf]
      rfl
    · intro n
      simp [sigismember, sigfillset]
  · intro tbl b g1 g2 ops hinit hops
    have hi := installed_after_init p tbl b g1 hinit
    obtain ⟨g3, h3, hi3, _⟩ := installed_run_ops p tbl ops g1 hi
    rw [hops] at h3
    injection h3 with h3
    subst h3
    obtain ⟨_, _, _, _, s1, s2, s3⟩ := hi3
    exact ⟨s1.2.2.2, s2.2.2.2, s3.2.2.2⟩

/-- C5, witness: an installation for signal number 40 on Linux: the entry has
the trampoline as handler and the flags the platform keeps of `4`. -/
theorem os_disposition_is_trampoline_witness :
    ∃ g1, signal_add_handler linux fresh_table 40 Handler.suspend_signal_handler 0 = .ok g1
      ∧ (g1.sigtable 40).sa_sigaction = Handler.ml_v2_signal_generic_handler
      ∧ (g1.sigtable 40).sa_flags
          = linux.kernel_flags ((linux.SA_SIGINFO ||| 0) ||| (fresh_table.sigtable 40).sa_flags) :=
  match (os_disposition_is_trampoline linux).1 fresh_table 40 Handler.suspend_signal_handler 0
    (by decide) with
  | ⟨g1, h1, h2, _, _, h5, _⟩ => ⟨g1, h1, h2, h5⟩

/-! ## The suspend handler -/

theorem restart_wait_ends (g : Globals) (w : Wake)
    (hw : ∀ c, (w c).2.signal = g.restart_signal_num) (pre : List Wake) :
    ∀ c : MonoThreadInfo, (∀ v ∈ pre ++ [w], ∀ c, (v c).1 = Status.returned) →
      ∃ (k : Nat) (c1 : MonoThreadInfo), 1 ≤ k
        ∧ restart_wait g (pre ++ [w]) c
            = (Status.returned, c1, List.replicate k (Event.sigsuspend g.suspend_signal_mask))
        ∧ c1.signal = g.restart_signal_num := by
  induction pre with
  | nil =>
    intro c hret
    have h1 := hret w (by simp) { c with signal := 0 }
    have h2 := hw { c with signal := 0 }
    cases hv : w { c with signal := 0 } with
    | mk st c1 =>
      rw [hv] at h1 h2
      simp only [] at h1 h2
      subst h1
      refine ⟨1, c1, le_refl _, ?_, h2⟩
      simp [restart_wait, hv, h2]
  | cons v vs ih =>
    intro c hret
    have h1 := hret v (by simp) { c with signal := 0 }
    cases hv : v { c with signal := 0 } with
    | mk st c1 =>
      rw [hv] at h1
      simp only [] at h1
      subst h1
      by_cases hs : c1.signal = g.restart_signal_num
      · refine ⟨1, c1, le_refl _, ?_, hs⟩
        simp [restart_wait, hv, hs]
      · obtain ⟨k, c2, hk, hr, hc2⟩ := ih c1 (fun u hu => hret u (by simp at hu ⊢; tauto))
        refine ⟨k + 1, c2, by omega, ?_, hc2⟩
        simp [restart_wait, hv, hs, hr, List.replicate_succ]

/-- Every event of the wait loop is a `sigsuspend`. -/
theorem restart_wait_trace (g : Globals) (wakes : List Wake) :
    ∀ c : MonoThreadInfo, ∀ e ∈ (restart_wait g wakes c).2.2,
      e = Event.sigsuspend g.suspend_signal_mask := by
  induction wakes with
  | nil =>
    intro c e he
    simpa [restart_wait] using he
  | cons v vs ih =>
    intro c e he
    cases hv : v { c with signal := 0 } with
    | mk st c1 =>
      cases st with
      | returned =>
        by_cases hs : c1.signal = g.restart_signal_num
        · simp [restart_wait, hv, hs] at he
          exact he
        · simp [restart_wait, hv, hs] at he
          rcases he with he | he
          · exact he
          · exact ih c1 e he
      | faulted x =>
        simp [restart_wait, hv] at he
        exact he
      | blocked =>
        simp [restart_wait, hv] at he
        exact he

/-- The handler's run when it goes through the wait loop and the loop ends. -/
theorem suspend_handler_parked_run (rt : Runtime) (g : Globals) (wakes : List Wake) (f : Frame)
    (hflag : f.current.syscall_break_signal = false)
    (htrans : (rt.mono_threads_transition_finish_async_suspend f.current.thread_state).1 = true)
    (k : Nat) (c1 : MonoThreadInfo)
    (hrw : restart_wait g wakes (at_wait_entry rt f)
      = (Status.returned, c1, List.replicate k (Event.sigsuspend g.suspend_signal_mask))) :
    suspend_signal_handler rt g wakes f =
      if c1.async_target ≠ 0 then
        { status := .returned,
          frame := { current := { c1 with user_data := 0, async_target := 0 },
                     context := rt.mono_monoctx_to_sigctx
                       (rt.setup_async_callback c1.thread_saved_state.ctx c1.async_target
                         c1.user_data) f.context },
          trace := [Event.mono_thread_info_current,
              Event.mono_threads_transition_finish_async_suspend,
              Event.thread_state_init_from_sigctx,
              Event.pthread_sigmask_block g.suspend_ack_signal_mask,
              Event.mono_threads_notify_initiator_of_suspend]
            ++ List.replicate k (Event.sigsuspend g.suspend_signal_mask)
            ++ [Event.pthread_sigmask_unblock g.suspend_ack_signal_mask]
            ++ [Event.setup_async_callback c1.thread_saved_state.ctx c1.async_target c1.user_data,
                Event.mono_monoctx_to_sigctx
                  (rt.setup_async_callback c1.thread_saved_state.ctx c1.async_target
                    c1.user_data)]
            ++ [Event.mono_threads_notify_initiator_of_resume] }
      else
        { status := .returned,
          frame := { current := c1, context := f.context },
          trace := [Event.mono_thread_info_current,
              Event.mono_threads_transition_finish_async_suspend,
              Event.thread_state_init_from_sigctx,
              Event.pthread_sigmask_block g.suspend_ack_signal_mask,
              Event.mono_threads_notify_initiator_of_suspend]
            ++ List.replicate k (Event.sigsuspend g.suspend_signal_mask)
            ++ [Event.pthread_sigmask_unblock g.suspend_ack_signal_mask]
            ++ []
            ++ [Event.mono_threads_notify_initiator_of_resume] } := by
  simp only [at_wait_entry, hflag] at hrw
  by_cases ha : c1.async_target = 0
  · simp [suspend_signal_handler, hflag, htrans, hrw, ha]
  · simp [suspend_signal_handler, hflag, htrans, hrw, ha]

theorem ends_with_restart_single (g : Globals) : EndsWithRestart g [restart_wake g] := by
  refine ⟨?_, [], restart_wake g, rfl, ?_⟩
  · intro w hw c
    simp only [List.mem_singleton] at hw
    subst hw
    rfl
  · intro c
    rfl

/-- C8: when the syscall-break flag is not set, the finish-async-suspend
transition succeeds and the wake-ups end with the restart signal, the handler
returns and its trace is: thread lookup, transition, capture, block of the
acknowledgement mask, "suspend acknowledged", one `sigsuspend` per wake-up
taken (at least one), unblock, the splice of a pending call if there is one,
"resume acknowledged". Each acknowledgement occurs exactly once, whatever the
capture callback returns. -/
theorem suspend_and_resume_acknowledged_once (rt : Runtime) (g : Globals) (wakes : List Wake)
    (f : Frame) (hflag : f.current.syscall_break_signal = false)
    (htrans : (rt.mono_threads_transition_finish_async_suspend f.current.thread_state).1 = true)
    (hw : EndsWithRestart g wakes) :
    (suspend_signal_handler rt g wakes f).status = Status.returned
    ∧ (suspend_signal_handler rt g wakes f).trace.count
        Event.mono_threads_notify_initiator_of_suspend = 1
    ∧ (suspend_signal_handler rt g wakes f).trace.count
        Event.mono_threads_notify_initiator_of_resume = 1
    ∧ ∃ (k : Nat) (splice : List Event), 1 ≤ k
      ∧ (splice = [] ∨ ∃ c t u c1, splice
          = [Event.setup_async_callback c t u, Event.mono_monoctx_to_sigctx c1])
      ∧ (suspend_signal_handler rt g wakes f).trace
          = [Event.mono_thread_info_current,
             Event.mono_threads_transition_finish_async_suspend,
             Event.thread_state_init_from_sigctx,
             Event.pthread_sigmask_block g.suspend_ack_signal_mask,
             Event.mono_threads_notify_initiator_of_suspend]
            ++ List.replicate k (Event.sigsuspend g.suspend_signal_mask)
            ++ [Event.pthread_sigmask_unblock g.suspend_ack_signal_mask]
            ++ splice
            ++ [Event.mono_threads_notify_initiator_of_resume] := by
  obtain ⟨hret, pre, w, hsplit, hlast⟩ := hw
  subst hsplit
  obtain ⟨k, c1, hk, hrw, _⟩ := restart_wait_ends g w hlast pre (at_wait_entry rt f) hret
  have hr := suspend_handler_parked_run rt g _ f hflag htrans k c1 hrw
  by_cases ha : c1.async_target = 0
  · rw [if_neg (not_not.mpr ha)] at hr
    rw [hr]
    refine ⟨rfl, ?_, ?_, k, [], hk, Or.inl rfl, rfl⟩
    · simp [List.count_cons, List.count_append, List.count_replicate]
    · simp [List.count_cons, List.count_append, List.count_replicate]
  · rw [if_pos ha] at hr
    rw [hr]
    refine ⟨rfl, ?_, ?_, k, _, hk, Or.inr ⟨_, _, _, _, rfl⟩, rfl⟩
    · simp [List.count_cons, List.count_append, List.count_replicate]
    · simp [List.count_cons, List.count_append, List.count_replicate]

/-- C8, witness: one wake-up, the restart handler, on an idle thread. -/
theorem suspend_and_resume_acknowledged_once_witness :
    (suspend_signal_handler plain_runtime installed_linux [restart_wake installed_linux]
        { current := idle_thread, context := { code := 9 } }).status = Status.returned
    ∧ (suspend_signal_handler plain_runtime installed_linux [restart_wake installed_linux]
        { current := idle_thread, context := { code := 9 } }).trace.count
        Event.mono_threads_notify_initiator_of_suspend = 1
    ∧ (suspend_signal_handler plain_runtime installed_linux [restart_wake installed_linux]
        { current := idle_thread, context := { code := 9 } }).trace.count
        Event.mono_threads_notify_initiator_of_resume = 1 :=
  have h := suspend_and_resume_acknowledged_once plain_runtime installed_linux
    [restart_wake installed_linux] { current := idle_thread, context := { code := 9 } }
    rfl rfl (ends_with_restart_single installed_linux)
  ⟨h.1, h.2.1, h.2.2.1⟩

/-- C9, counterexample: a thread with `user_data` set and no `async_target`
goes through the wait; the target is not set when the loop ends, the handler
returns, and `user_data` is still set: it is not empty on return. -/
theorem user_data_kept_without_target :
    (restart_wait installed_linux [restart_wake installed_linux]
        (at_wait_entry plain_runtime data_without_target)).1 = Status.returned
    ∧ (restart_wait installed_linux [restart_wake installed_linux]
        (at_wait_entry plain_runtime data_without_target)).2.1.async_target = 0
    ∧ (suspend_signal_handler plain_runtime installed_linux [restart_wake installed_linux]
        data_without_target).status = Status.returned
    ∧ (suspend_signal_handler plain_runtime installed_linux [restart_wake installed_linux]
        data_without_target).frame.current.user_data = 5
    ∧ (suspend_signal_handler plain_runtime installed_linux [restart_wake installed_linux]
        data_without_target).frame.current.user_data ≠ 0 := by
  refine ⟨?_, ?_, ?_, ?_, ?_⟩ <;> decide

/-- C9, amended: for every invocation that goes through the restart-wait, with
`c1` the thread record when the loop ends: if `c1.async_target` is set, the
handler calls `setup_async_callback` exactly once, on the saved context, with
that target and that `user_data`, writes the result into the signal context,
clears both fields and changes nothing else, all before "resume
acknowledged"; if it is not set, the signal context and the whole record are
left as they are and no callback is set up. On return `async_target` is empty
in both cases; `user_data` is empty if the call was consumed, and otherwise
keeps the value it had at the end of the loop. -/
theorem pending_async_call_consumed_once (rt : Runtime) (g : Globals) (wakes : List Wake)
    (f : Frame) (hflag : f.current.syscall_break_signal = false)
    (htrans : (rt.mono_threads_transition_finish_async_suspend f.current.thread_state).1 = true)
    (hw : EndsWithRestart g wakes) :
    ∃ (k : Nat) (c1 : MonoThreadInfo),
      restart_wait g wakes (at_wait_entry rt f)
        = (Status.returned, c1, List.replicate k (Event.sigsuspend g.suspend_signal_mask))
      ∧ (suspend_signal_handler rt g wakes f).status = Status.returned
      ∧ (c1.async_target ≠ 0 →
          (suspend_signal_handler rt g wakes f).trace.filter Event.is_setup
            = [Event.setup_async_callback c1.thread_saved_state.ctx c1.async_target c1.user_data]
          ∧ (suspend_signal_handler rt g wakes f).frame.context
            = rt.mono_monoctx_to_sigctx
                (rt.setup_async_callback c1.thread_saved_state.ctx c1.async_target c1.user_data)
                f.context
          ∧ (suspend_signal_handler rt g wakes f).frame.current
            = { c1 with user_data := 0, async_target := 0 }
          ∧ ∃ before, Event.mono_threads_notify_initiator_of_resume ∉ before
            ∧ (suspend_signal_handler rt g wakes f).trace
              = before
                ++ [Event.setup_async_callback c1.thread_saved_state.ctx c1.async_target
                      c1.user_data,
                    Event.mono_monoctx_to_sigctx
                      (rt.setup_async_callback c1.thread_saved_state.ctx c1.async_target
                        c1.user_data),
                    Event.mono_threads_notify_initiator_of_resume])
      ∧ (c1.async_target = 0 →
          (suspend_signal_handler rt g wakes f).trace.filter Event.is_setup = []
          ∧ (suspend_signal_handler rt g wakes f).frame.context = f.context
          ∧ (suspend_signal_handler rt g wakes f).frame.current = c1)
      ∧ (suspend_signal_handler rt g wakes f).frame.current.async_target = 0
      ∧ (suspend_signal_handler rt g wakes f).frame.current.user_data
          = if c1.async_target ≠ 0 then 0 else c1.user_data := by
  obtain ⟨hret, pre, w, hsplit, hlast⟩ := hw
  subst hsplit
  obtain ⟨k, c1, hk, hrw, _⟩ := restart_wait_ends g w hlast pre (at_wait_entry rt f) hret
  refine ⟨k, c1, hrw, ?_⟩
  have hr := suspend_handler_parked_run rt g _ f hflag htrans k c1 hrw
  by_cases ha : c1.async_target = 0
  · rw [if_neg (not_not.mpr ha)] at hr
    rw [hr]
    refine ⟨rfl, fun h => absurd ha h, fun _ => ⟨?_, rfl, rfl⟩, ha, ?_⟩
    · simp [List.filter_cons, List.filter_append, Event.is_setup, List.filter_replicate]
    · rw [if_neg (not_not.mpr ha)]
  · rw [if_pos ha] at hr
    rw [hr]
    refine ⟨rfl, fun _ => ⟨?_, rfl, rfl, ?_⟩, fun h => absurd h ha, rfl, ?_⟩
    · simp [List.filter_cons, List.filter_append, Event.is_setup, List.filter_replicate]
    · refine ⟨[Event.mono_thread_info_current,
          Event.mono_threads_transition_finish_async_suspend,
          Event.thread_state_init_from_sigctx,
          Event.pthread_sigmask_block g.suspend_ack_signal_mask,
          Event.mono_threads_notify_initiator_of_suspend]
        ++ List.replicate k (Event.sigsuspend g.suspend_signal_mask)
        ++ [Event.pthread_sigmask_unblock g.suspend_ack_signal_mask], ?_, ?_⟩
      · simp [List.mem_replicate]
      · simp
    · rw [if_pos ha]

/-- C9, witness: a pending call registered on a thread that is then restarted. -/
theorem pending_async_call_consumed_once_witness :
    ∃ (k : Nat) (c1 : MonoThreadInfo),
      restart_wait installed_linux [restart_wake installed_linux]
          (at_wait_entry plain_runtime pending_call)
        = (Status.returned, c1,
            List.replicate k (Event.sigsuspend installed_linux.suspend_signal_mask))
      ∧ (suspend_signal_handler plain_runtime installed_linux [restart_wake installed_linux]
          pending_call).status = Status.returned :=
  have h := pending_async_call_consumed_once plain_runtime installed_linux
    [restart_wake installed_linux] pending_call rfl rfl (ends_with_restart_single installed_linux)
  match h with
  | ⟨k, c1, h1, h2, _⟩ => ⟨k, c1, h1, h2⟩

/-- C10: (1) with the syscall-break flag set the handler clears the flag,
notifies the abort and returns: its trace is the thread lookup and the abort
notification, nothing else, and no other field and not the signal context
changes. (2) With the flag unset, the transition failing and hybrid suspension
enabled, it stores the new state word, sets `suspend_can_continue`, notifies
"suspend acknowledged" and returns: its trace is the thread lookup, the
transition, the hybrid query and that notification. (3) In every run, a
`sigsuspend` in the trace implies that the flag was unset and the transition
succeeded. -/
theorem suspend_handler_non_parking_paths (rt : Runtime) (g : Globals) (wakes : List Wake)
    (f : Frame) :
    (f.current.syscall_break_signal = true →
      suspend_signal_handler rt g wakes f
        = { status := Status.returned,
            frame := { f with current := { f.current with syscall_break_signal := false } },
            trace := [Event.mono_thread_info_current,
                      Event.mono_threads_notify_initiator_of_abort] })
    ∧ (f.current.syscall_break_signal = false →
        (rt.mono_threads_transition_finish_async_suspend f.current.thread_state).1 = false →
        rt.mono_threads_is_hybrid_suspension_enabled = true →
        suspend_signal_handler rt g wakes f
          = { status := Status.returned,
              frame := { f with current :=
                { f.current with
                  thread_state :=
                    (rt.mono_threads_transition_finish_async_suspend f.current.thread_state).2,
                  suspend_can_continue := true } },
              trace := [Event.mono_thread_info_current,
                        Event.mono_threads_transition_finish_async_suspend,
                        Event.mono_threads_is_hybrid_suspension_enabled,
                        Event.mono_threads_notify_initiator_of_suspend] })
    ∧ (∀ e ∈ (suspend_signal_handler rt g wakes f).trace, e.is_wait = true →
        f.current.syscall_break_signal = false
        ∧ (rt.mono_threads_transition_finish_async_suspend f.current.thread_state).1 = true) := by
  refine ⟨?_, ?_, ?_⟩
  · intro h
    simp [suspend_signal_handler, h]
  · intro h1 h2 h3
    simp [suspend_signal_handler, h1, h2, h3]
  · intro e he hwait
    cases hflag : f.current.syscall_break_signal with
    | true =>
      simp [suspend_signal_handler, hflag] at he
      rcases he with he | he <;> subst he <;> simp [Event.is_wait] at hwait
    | false =>
      cases htrans : (rt.mono_threads_transition_finish_async_suspend f.current.thread_state).1 with
      | true => exact ⟨rfl, rfl⟩
      | false =>
        cases hh : rt.mono_threads_is_hybrid_suspension_enabled with
        | true =>
          simp [suspend_signal_handler, hflag, htrans, hh] at he
          rcases he with he | he | he | he <;> subst he <;> simp [Event.is_wait] at hwait
        | false =>
          simp [suspend_signal_handler, hflag, htrans, hh] at he
          rcases he with he | he | he <;> subst he <;> simp [Event.is_wait] at hwait

/-- C10, witness: a delivery to a thread whose syscall-break flag is set. -/
theorem suspend_handler_non_parking_paths_witness :
    suspend_signal_handler plain_runtime installed_linux [] syscall_break
      = { status := Status.returned,
          frame := { syscall_break with
            current := { syscall_break.current with syscall_break_signal := false } },
          trace := [Event.mono_thread_info_current,
                    Event.mono_threads_notify_initiator_of_abort] } :=
  (suspend_handler_non_parking_paths plain_runtime installed_linux [] syscall_break).1 rfl

/-! ## The trampoline -/

theorem restart_wait_trace_of_eq (g : Globals) (wakes : List Wake) (c c1 : MonoThreadInfo)
    (st : Status) (waits : List Event) (h : restart_wait g wakes c = (st, c1, waits)) :
    ∀ e ∈ waits, e = Event.sigsuspend g.suspend_signal_mask := by
  have := restart_wait_trace g wakes c
  rw [h] at this
  exact this

theorem suspend_handler_no_call (rt : Runtime) (g : Globals) (wakes : List Wake) (f : Frame) :
    (suspend_signal_handler rt g wakes f).trace.filter Event.is_call = [] := by
  rw [List.filter_eq_nil_iff]
  intro e he
  unfold suspend_signal_handler at he
  simp only [] at he
  split at he
  · simp at he
    rcases he with he | he <;> subst he <;> simp [Event.is_call]
  · split at he
    · split at he
      · simp at he
        rcases he with he | he | he <;> subst he <;> simp [Event.is_call]
      · simp at he
        rcases he with he | he | he | he <;> subst he <;> simp [Event.is_call]
    · split at he
      · rename_i c1 waits heq
        have hw2 := restart_wait_trace_of_eq g wakes _ _ _ _ heq
        split at he
        · simp at he
          rcases he with he | he | he | he | he | he | he | he | he | he
          all_goals first
            | (subst he; simp [Event.is_call])
            | (rw [hw2 e he]; simp [Event.is_call])
        · simp at he
          rcases he with he | he | he | he | he | he | he | he
          all_goals first
            | (subst he; simp [Event.is_call])
            | (rw [hw2 e he]; simp [Event.is_call])
      · rename_i st c1 waits _ heq
        have hw2 := restart_wait_trace_of_eq g wakes _ _ _ _ heq
        simp at he
        rcases he with he | he | he | he | he | he
        all_goals first
          | (subst he; simp [Event.is_call])
          | (rw [hw2 e he]; simp [Event.is_call])

theorem done_registered_calls (a s : Bool) (r : Result) :
    (done_registered a s r).trace.filter Event.is_call = r.trace.filter Event.is_call := by
  cases s <;> simp [done_registered, List.filter_append, Event.is_call]

theorem call_handler_no_call (rt : Runtime) (g : Globals) (h : Handler) (signo : Int)
    (wakes : List Wake) (f : Frame) :
    (call_handler rt g h signo wakes f).trace.filter Event.is_call = [] := by
  cases h with
  | suspend_signal_handler => exact suspend_handler_no_call rt g wakes f
  | restart_signal_handler => simp [call_handler, restart_signal_handler, Event.is_call]
  | SIG_DFL => simp [call_handler]
  | SIG_IGN => simp [call_handler]
  | ml_v2_signal_generic_handler => simp [call_handler]
  | fn a => simp [call_handler]

/-- Calls made by the trampoline on a thread that is not attached. -/
theorem trampoline_calls_unattached (rt : Runtime) (g : Globals) (signo : Int)
    (wakes : List Wake) (f : Frame) (m : MergedSignalHandle)
    (hrec : g_hash_table_lookup g.mono_ml_signal_handler_patched signo = some m)
    (h0 : m.original.sa_sigaction ≠ Handler.SIG_DFL) :
    (ml_v2_signal_generic_handler rt g (-1) signo wakes f).trace.filter Event.is_call
      = [Event.call m.original.sa_sigaction signo] := by
  have hc := call_handler_no_call rt g m.original.sa_sigaction signo wakes f
  simp [ml_v2_signal_generic_handler, string_literal_condition, hrec, mono_is_registered_thread,
    melonloader_signal_handler_fallback, h0, List.filter_cons, Event.is_call, hc]

/-- Calls made by the trampoline on an attached thread marked external. -/
theorem trampoline_calls_external (rt : Runtime) (g : Globals) (small_id signo : Int)
    (wakes : List Wake) (f : Frame) (m : MergedSignalHandle)
    (hrec : g_hash_table_lookup g.mono_ml_signal_handler_patched signo = some m)
    (h0 : m.original.sa_sigaction ≠ Handler.SIG_DFL)
    (hatt : small_id ≠ -1)
    (hsrc : f.current.suspend_source
      = MonoThreadSuspendSource.MONO_THREAD_SUSPEND_SOURCE_EXTERNAL) :
    (ml_v2_signal_generic_handler rt g small_id signo wakes f).trace.filter Event.is_call
      = [Event.call m.original.sa_sigaction signo] := by
  have hc := fun f1 => call_handler_no_call rt g m.original.sa_sigaction signo wakes f1
  cases hl : f.current.suspend_source_locked <;>
    cases hb : decide (signo = g.suspend_signal_num) <;>
    simp only [ml_v2_signal_generic_handler, string_literal_condition, hrec,
      mono_is_registered_thread, hatt, hl, hb, hsrc, melonloader_signal_handler_fallback, h0,
      Bool.not_true, Bool.not_false, Bool.and_false, Bool.false_eq_true, if_false, if_true,
      ne_eq, not_false_eq_true, decide_True, decide_False] <;>
    split <;>
    simp [done_registered, List.filter_append, List.filter_cons, Event.is_call, hc]

/-- Calls made by the trampoline on an attached thread not marked external. -/
theorem trampoline_calls_default (rt : Runtime) (g : Globals) (small_id signo : Int)
    (wakes : List Wake) (f : Frame) (m : MergedSignalHandle)
    (hrec : g_hash_table_lookup g.mono_ml_signal_handler_patched signo = some m)
    (h1 : m.new.sa_sigaction = Handler.suspend_signal_handler
      ∨ m.new.sa_sigaction = Handler.restart_signal_handler)
    (hatt : small_id ≠ -1)
    (hsrc : f.current.suspend_source
      = MonoThreadSuspendSource.MONO_THREAD_SUSPEND_SOURCE_DEFAULT) :
    (ml_v2_signal_generic_handler rt g small_id signo wakes f).trace.filter Event.is_call
      = [Event.call m.new.sa_sigaction signo] := by
  have hc := fun f1 => call_handler_no_call rt g m.new.sa_sigaction signo wakes f1
  cases hl : f.current.suspend_source_locked <;>
    cases hb : decide (signo = g.suspend_signal_num) <;>
    simp only [ml_v2_signal_generic_handler, string_literal_condition, hrec,
      mono_is_registered_thread, hatt, hl, hb, hsrc, h1,
      Bool.not_true, Bool.not_false, Bool.and_false, Bool.false_eq_true, if_false, if_true,
      ne_eq, not_false_eq_true, decide_True, decide_False] <;>
    split <;>
    simp [done_registered, List.filter_append, List.filter_cons, Event.is_call, hc]

theorem count_eq_count_filter_call (e : Event) (he : e.is_call = true) (l : List Event) :
    l.count e = (l.filter Event.is_call).count e := by
  induction l with
  | nil => rfl
  | cons a t ih =>
    by_cases ha : a.is_call = true
    · simp only [List.filter_cons, ha, if_true, List.count_cons, ih]
    · have hne : ¬ (a == e) = true := by
        intro h
        have : a = e := by simpa using h
        rw [this] at ha
        exact ha he
      simp only [List.filter_cons, ha, List.count_cons, ih, hne, if_false]
      simp

/-- C2: let the table hold for `signo` a record whose original handler is a
function `fn addr` of another owner and whose new handler is the suspend or
the restart handler. For every delivery, whatever the registered thread
checker, the wake-ups and the thread record: on a thread that is not attached
(small id `-1`), and on an attached thread marked external, the calls the
trampoline makes through handler pointers are exactly one call of the
original handler, none of the new one; on an attached thread marked default
they are exactly one call of the new handler, none of the original. -/
theorem trampoline_chaining (rt : Runtime) (g : Globals) (checker : Option (Nat → Bool))
    (small_id signo : Int) (wakes : List Wake) (f : Frame) (m : MergedSignalHandle)
    (addr : Nat)
    (hrec : g_hash_table_lookup g.mono_ml_signal_handler_patched signo = some m)
    (h0 : m.original.sa_sigaction = Handler.fn addr)
    (h1 : m.new.sa_sigaction = Handler.suspend_signal_handler
      ∨ m.new.sa_sigaction = Handler.restart_signal_handler) :
    (small_id = -1 →
      (ml_v2_signal_generic_handler rt (mono_melonloader_set_thread_checker g checker)
          small_id signo wakes f).trace.filter Event.is_call
        = [Event.call (Handler.fn addr) signo]
      ∧ (ml_v2_signal_generic_handler rt (mono_melonloader_set_thread_checker g checker)
          small_id signo wakes f).trace.count (Event.call (Handler.fn addr) signo) = 1
      ∧ (ml_v2_signal_generic_handler rt (mono_melonloader_set_thread_checker g checker)
          small_id signo wakes f).trace.count (Event.call m.new.sa_sigaction signo) = 0)
    ∧ (small_id ≠ -1 →
      f.current.suspend_source
        = MonoThreadSuspendSource.MONO_THREAD_SUSPEND_SOURCE_EXTERNAL →
      (ml_v2_signal_generic_handler rt (mono_melonloader_set_thread_checker g checker)
          small_id signo wakes f).trace.filter Event.is_call
        = [Event.call (Handler.fn addr) signo]
      ∧ (ml_v2_signal_generic_handler rt (mono_melonloader_set_thread_checker g checker)
          small_id signo wakes f).trace.count (Event.call (Handler.fn addr) signo) = 1
      ∧ (ml_v2_signal_generic_handler rt (mono_melonloader_set_thread_checker g checker)
          small_id signo wakes f).trace.count (Event.call m.new.sa_sigaction signo) = 0)
    ∧ (small_id ≠ -1 →
      f.current.suspend_source
        = MonoThreadSuspendSource.MONO_THREAD_SUSPEND_SOURCE_DEFAULT →
      (ml_v2_signal_generic_handler rt (mono_melonloader_set_thread_checker g checker)
          small_id signo wakes f).trace.filter Event.is_call
        = [Event.call m.new.sa_sigaction signo]
      ∧ (ml_v2_signal_generic_handler rt (mono_melonloader_set_thread_checker g checker)
          small_id signo wakes f).trace.count (Event.call m.new.sa_sigaction signo) = 1
      ∧ (ml_v2_signal_generic_handler rt (mono_melonloader_set_thread_checker g checker)
          small_id signo wakes f).trace.count (Event.call (Handler.fn addr) signo) = 0) := by
  have hrec2 : g_hash_table_lookup
      (mono_melonloader_set_thread_checker g checker).mono_ml_signal_handler_patched signo
      = some m := hrec
  have hnd : m.original.sa_sigaction ≠ Handler.SIG_DFL := by
    rw [h0]
    intro h
    cases h
  have hne : m.new.sa_sigaction ≠ Handler.fn addr := by
    rcases h1 with h | h <;> rw [h] <;> intro e <;> cases e
  have hne2 : Handler.fn addr ≠ m.new.sa_sigaction := fun e => hne e.symm
  refine ⟨?_, ?_, ?_⟩
  · intro hs
    subst hs
    have hf := trampoline_calls_unattached rt _ signo wakes f m hrec2 hnd
    rw [h0] at hf
    refine ⟨hf, ?_, ?_⟩
    · rw [count_eq_count_filter_call (Event.call (Handler.fn addr) signo) rfl, hf]
      simp
    · rw [count_eq_count_filter_call (Event.call m.new.sa_sigaction signo) rfl, hf]
      simp [List.count_cons, hne2, hne]
  · intro hs hsrc
    have hf := trampoline_calls_external rt _ small_id signo wakes f m hrec2 hnd hs hsrc
    rw [h0] at hf
    refine ⟨hf, ?_, ?_⟩
    · rw [count_eq_count_filter_call (Event.call (Handler.fn addr) signo) rfl, hf]
      simp
    · rw [count_eq_count_filter_call (Event.call m.new.sa_sigaction signo) rfl, hf]
      simp [List.count_cons, hne2, hne]
  · intro hs hsrc
    have hf := trampoline_calls_default rt _ small_id signo wakes f m hrec2 h1 hs hsrc
    refine ⟨hf, ?_, ?_⟩
    · rw [count_eq_count_filter_call (Event.call m.new.sa_sigaction signo) rfl, hf]
      simp
    · rw [count_eq_count_filter_call (Event.call (Handler.fn addr) signo) rfl, hf]
      simp [List.count_cons, hne2, hne]

/-- C2, witness: signal number 40, chained over the handler of another owner,
delivered to a thread that is not attached. -/
theorem trampoline_chaining_witness :
    (ml_v2_signal_generic_handler plain_runtime
        (mono_melonloader_set_thread_checker chained_40 none) (-1) 40 [] idle_frame).trace.filter
        Event.is_call
      = [Event.call (Handler.fn 7) 40] :=
  ((trampoline_chaining plain_runtime chained_40 none (-1) 40 [] idle_frame record_40 7
    (by decide) rfl (Or.inl rfl)).1 rfl).1

/-- C7, evaluation: signal number 40 has no record after the initialisation on
the Linux numbers. Delivered to a thread that is not attached, the trampoline
does not assert: it reads the small id and then dies on the null record.
Delivered to an attached thread, it reads the small id and the thread record,
takes the authority lock, and dies on the null record. -/
theorem unregistered_delivery_does_not_assert :
    g_hash_table_contains installed_linux.mono_ml_signal_handler_patched 40 = false
    ∧ (ml_v2_signal_generic_handler plain_runtime installed_linux (-1) 40 [] idle_frame).status
        = Status.faulted Fault.segfault
    ∧ (ml_v2_signal_generic_handler plain_runtime installed_linux (-1) 40 [] idle_frame).trace
        = [Event.mono_thread_info_get_small_id]
    ∧ (ml_v2_signal_generic_handler plain_runtime installed_linux 3 40 [] idle_frame).status
        = Status.faulted Fault.segfault
    ∧ (ml_v2_signal_generic_handler plain_runtime installed_linux 3 40 [] idle_frame).trace
        = [Event.mono_thread_info_get_small_id, Event.mono_thread_info_current]
    ∧ (ml_v2_signal_generic_handler plain_runtime installed_linux 3 40 []
        idle_frame).frame.current.suspend_source_locked = true := by
  refine ⟨?_, ?_, ?_, ?_, ?_, ?_⟩ <;> decide

/-! ## Signal authority -/

theorem restart_wait_clears (g : Globals) (wakes : List Wake) (c : MonoThreadInfo) :
    restart_wait g wakes c = restart_wait g wakes { c with signal := 0 } := by
  cases wakes with
  | nil => simp [restart_wait]
  | cons v vs => simp [restart_wait]

theorem restart_wait_skips (g : Globals) (pre : List Wake) :
    ∀ (c cP : MonoThreadInfo) (rest : List Wake), NonRestartRun g pre c cP →
      restart_wait g (pre ++ rest) c
        = ((restart_wait g rest cP).1, (restart_wait g rest cP).2.1,
            List.replicate pre.length (Event.sigsuspend g.suspend_signal_mask)
              ++ (restart_wait g rest cP).2.2) := by
  induction pre with
  | nil =>
    intro c cP rest h
    simp only [NonRestartRun] at h
    subst h
    simp
  | cons v vs ih =>
    intro c cP rest h
    obtain ⟨c2, h1, h2, h3⟩ := h
    have := ih c2 cP rest h3
    simp [restart_wait, h1, h2, this, List.replicate_succ]

/-- The loop is left at the first wake-up that leaves the restart signal
number in the field, and only there. -/
theorem restart_wait_returned_iff (g : Globals) (wakes : List Wake) :
    ∀ (c cE : MonoThreadInfo) (waits : List Event),
      restart_wait g wakes c = (Status.returned, cE, waits) ↔
        ∃ (pre : List Wake) (w : Wake) (post : List Wake) (cP : MonoThreadInfo),
          wakes = pre ++ w :: post ∧ NonRestartRun g pre c cP
          ∧ w { cP with signal := 0 } = (Status.returned, cE)
          ∧ cE.signal = g.restart_signal_num
          ∧ waits = List.replicate (pre.length + 1) (Event.sigsuspend g.suspend_signal_mask) := by
  intro c cE waits
  constructor
  · induction wakes generalizing c waits with
    | nil =>
      intro h
      simp [restart_wait] at h
    | cons v vs ih =>
      intro h
      cases hv : v { c with signal := 0 } with
      | mk st c2 =>
        cases st with
        | returned =>
          by_cases hs : c2.signal = g.restart_signal_num
          · simp [restart_wait, hv, hs] at h
            obtain ⟨e1, e2⟩ := h
            subst e1 e2
            exact ⟨[], v, vs, c, rfl, rfl, hv, hs, rfl⟩
          · simp [restart_wait, hv, hs] at h
            cases hr : restart_wait g vs c2 with
            | mk st3 rest3 =>
              obtain ⟨c3, w3⟩ := rest3
              rw [hr] at h
              simp only [] at h
              obtain ⟨e1, e2, e3⟩ := h
              subst e1 e2 e3
              obtain ⟨pre, w, post, cP, q1, q2, q3, q4, q5⟩ := ih c2 w3 hr
              refine ⟨v :: pre, w, post, cP, by simp [q1], ⟨c2, hv, hs, q2⟩, q3, q4, ?_⟩
              simp [q5, List.replicate_succ]
        | faulted x => simp [restart_wait, hv] at h
        | blocked => simp [restart_wait, hv] at h
  · rintro ⟨pre, w, post, cP, q1, q2, q3, q4, q5⟩
    subst q1 q5
    rw [restart_wait_skips g pre c cP (w :: post) q2]
    simp [restart_wait, q3, q4, List.replicate_succ']

/-- Wake-ups none of which leaves the restart signal number never end the loop. -/
theorem restart_wait_blocked (g : Globals) (wakes : List Wake) (c cP : MonoThreadInfo)
    (h : NonRestartRun g wakes c cP) :
    restart_wait g wakes c
      = (Status.blocked, { cP with signal := 0 },
          List.replicate (wakes.length + 1) (Event.sigsuspend g.suspend_signal_mask)) := by
  have := restart_wait_skips g wakes c cP [] h
  simp only [List.append_nil] at this
  rw [this]
  simp [restart_wait, List.replicate_succ']

theorem add_ok_masks (p : Platform) (g g1 : Globals) (s : Int) (h : Handler) (f : Nat)
    (hok : signal_add_handler p g s h f = .ok g1) :
    g1.suspend_signal_mask = g.suspend_signal_mask
    ∧ g1.suspend_ack_signal_mask = g.suspend_ack_signal_mask := by
  have hv := add_ok_valid p g g1 s h f hok
  rw [signal_add_handler_eq p g s h f hv] at hok
  injection hok with hok
  subst hok
  exact ⟨rfl, rfl⟩

theorem abort_signal_get_frame (p : Platform) (g g1 : Globals) (n : Int)
    (hok : abort_signal_get p g = .ok (g1, n)) :
    g1.suspend_signal_mask = g.suspend_signal_mask
    ∧ g1.suspend_ack_signal_mask = g.suspend_ack_signal_mask
    ∧ g1.restart_signal_num = g.restart_signal_num := by
  by_cases h : g.abort_signum = -1
  · obtain ⟨_, e⟩ := abort_signal_get_fresh p g g1 n h hok
    subst e
    exact ⟨rfl, rfl, rfl⟩
  · rw [abort_signal_get_memo p g h] at hok
    simp only [Except.ok.injEq, Prod.mk.injEq] at hok
    rw [← hok.1]
    exact ⟨rfl, rfl, rfl⟩

/-- Every completed initialisation leaves the two masks built from the restart
signal number. -/
theorem masks_after_init (p : Platform) (g0 gF : Globals)
    (hok : mono_threads_suspend_init_signals p g0 = .ok gF) : MasksSet p gF := by
  obtain ⟨g2, n1, g4, g5, n2, g9, g10, n3, g12, _, _, _, h4, h5, h6, hF⟩ :=
    init_signals_steps p g0 gF hok
  obtain ⟨m1, m2⟩ := add_ok_masks p _ g9 n2 _ _ h4
  have r1 := (add_ok_frame p _ g9 n2 _ _ h4).2.1
  simp only [] at m1 m2 r1
  obtain ⟨a1, a2, a3⟩ := abort_signal_get_frame p g9 g10 n3 h5
  obtain ⟨b1, b2⟩ := add_ok_masks p _ g12 n3 _ _ h6
  have r2 := (add_ok_frame p _ g12 n3 _ _ h6).2.1
  simp only [] at b1 b2 r2
  subst hF
  unfold MasksSet
  simp only []
  rw [b1, b2, r2, a1, a2, a3, m1, m2, r1]
  exact ⟨rfl, rfl⟩

theorem masks_after_reload (p : Platform) (g g1 : Globals) (hm : MasksSet p g)
    (hok : mono_melonloader_thread_suspend_reload p g = .ok g1) : MasksSet p g1 := by
  unfold mono_melonloader_thread_suspend_reload at hok
  split at hok
  · cases hok
  · rename_i ga ha
    split at hok
    · cases hok
    · rename_i gb hb
      obtain ⟨a1, a2⟩ := add_ok_masks p _ ga _ _ _ ha
      obtain ⟨b1, b2⟩ := add_ok_masks p _ gb _ _ _ hb
      obtain ⟨c1, c2⟩ := add_ok_masks p _ g1 _ _ _ hok
      have ra := (add_ok_frame p _ ga _ _ _ ha).2.1
      have rb := (add_ok_frame p _ gb _ _ _ hb).2.1
      have rc := (add_ok_frame p _ g1 _ _ _ hok).2.1
      unfold MasksSet at hm ⊢
      rw [c1, c2, rc, b1, b2, rb, a1, a2, ra]
      exact hm

theorem masks_after_ops (p : Platform) (ops : List Op) :
    ∀ g g2 : Globals, MasksSet p g → run_ops p g ops = .ok g2 → MasksSet p g2 := by
  induction ops with
  | nil =>
    intro g g2 hm h
    simp only [run_ops, Except.ok.injEq] at h
    subst h
    exact hm
  | cons o os ih =>
    intro g g2 hm h
    simp only [run_ops] at h
    split at h
    · cases h
    · rename_i ga ha
      refine ih ga g2 ?_ h
      cases o with
      | init_signals => exact masks_after_init p g ga ha
      | reload => exact masks_after_reload p g ga hm ha

/-- The restart signal number the first initialisation resolves is positive. -/
theorem restart_number_positive (p : Platform) (tbl : Int → Sigaction) (b : SigSet)
    (gF : Globals)
    (hok : mono_threads_suspend_init_signals p (Globals.startup tbl b) = .ok gF) :
    0 < gF.restart_signal_num := by
  obtain ⟨g2, n1, g4, g5, n2, g9, g10, n3, g12, h1, h2, h3, h4, h5, h6, hF⟩ :=
    init_signals_steps p _ gF hok
  simp only [Globals.startup, Option.isNone_none, if_true] at h1
  obtain ⟨_, hg2⟩ := suspend_signal_get_fresh p _ g2 n1 rfl h1
  subst hg2
  have f1e := (add_ok_frame p _ g4 n1 _ _ h2).2.2.2.2.1
  simp only [] at f1e
  obtain ⟨hs2, _⟩ := restart_signal_get_fresh p g4 g5 n2 f1e h3
  obtain ⟨k, hk, hk1, _⟩ := (search_ok_iff p _ n2).1 hs2
  have r1 := (add_ok_frame p _ g9 n2 _ _ h4).2.1
  obtain ⟨_, _, a3⟩ := abort_signal_get_frame p g9 g10 n3 h5
  have r2 := (add_ok_frame p _ g12 n3 _ _ h6).2.1
  simp only [] at r1 r2
  subst hF
  simp only []
  rw [r2, a3, r1, hk]
  omega

theorem wait_mask_members (p : Platform) (r n : Int) :
    sigismember (sigdelset (sigfillset p) r) n = true
      ↔ (sigismember (sigfillset p) n = true ∧ n ≠ r) := by
  simp only [sigismember, sigdelset, sigfillset, List.mem_cons, Bool.not_eq_true',
    decide_eq_false_iff_not, not_or]
  tauto

theorem ack_mask_members (r n : Int) :
    sigismember (sigaddset sigemptyset r) n = true ↔ n = r := by
  simp [sigismember, sigaddset, sigemptyset]

/-- The masks the suspend handler passes to `sigsuspend` and `pthread_sigmask`. -/
theorem suspend_handler_masks (rt : Runtime) (g : Globals) (wakes : List Wake) (f : Frame) :
    ∀ e ∈ (suspend_signal_handler rt g wakes f).trace,
      (∀ m, e = Event.sigsuspend m → m = g.suspend_signal_mask)
      ∧ (∀ m, e = Event.pthread_sigmask_block m → m = g.suspend_ack_signal_mask)
      ∧ (∀ m, e = Event.pthread_sigmask_unblock m → m = g.suspend_ack_signal_mask) := by
  intro e he
  unfold suspend_signal_handler at he
  simp only [] at he
  split at he
  · simp at he
    rcases he with he | he <;> subst he <;> simp
  · split at he
    · split at he
      · simp at he
        rcases he with he | he | he <;> subst he <;> simp
      · simp at he
        rcases he with he | he | he | he <;> subst he <;> simp
    · split at he
      · rename_i c1 waits heq
        have hw2 := restart_wait_trace_of_eq g wakes _ _ _ _ heq
        split at he
        · simp at he
          rcases he with he | he | he | he | he | he | he | he | he | he
          all_goals first
            | (subst he; simp)
            | (rw [hw2 e he]; simp)
        · simp at he
          rcases he with he | he | he | he | he | he | he | he
          all_goals first
            | (subst he; simp)
            | (rw [hw2 e he]; simp)
      · rename_i st c1 waits _ heq
        have hw2 := restart_wait_trace_of_eq g wakes _ _ _ _ heq
        simp at he
        rcases he with he | he | he | he | he | he
        all_goals first
          | (subst he; simp)
          | (rw [hw2 e he]; simp)

/-- C11, counterexample: on Linux with the GNU C library, after the
initialisation with every disposition default the restart signal number is 36,
and the mask the handler waits with holds neither 32 nor 33, two signals that
are not the restart signal: it does not contain every signal except the
restart signal. -/
theorem wait_mask_lacks_reserved :
    mono_threads_suspend_init_signals linux (Globals.startup all_default sigemptyset)
      = .ok installed_linux
    ∧ installed_linux.restart_signal_num = 36
    ∧ sigismember installed_linux.suspend_signal_mask 32 = false
    ∧ sigismember installed_linux.suspend_signal_mask 33 = false
    ∧ sigismember installed_linux.suspend_signal_mask 35 = true
    ∧ sigismember installed_linux.suspend_signal_mask 36 = false := by
  refine ⟨rfl, ?_, ?_, ?_, ?_, ?_⟩ <;> decide

/-- C11, amended: (1) `restart_signal_handler` stores the restart signal number in the
last-signal field of the current thread record, returns, and changes nothing
else. (2) The wait loop clears that field before every wait: it behaves the
same from a record with the field cleared, and every wake-up is taken on a
cleared record. (3) For every sequence of wake-ups the loop is left exactly at
the first wake-up that leaves the restart signal number in the field, after
one `sigsuspend` per wake-up taken, and the field then holds that number.
(4) Wake-ups none of which leaves that number never end the loop: the thread
stays in `sigsuspend`. (5) After the first initialisation and any further
initialisations and reloads the restart signal number is not zero, so a
wake-up that leaves the field cleared does not end the loop; the mask the
handler waits with is the set `sigfillset` builds with the restart signal
removed: it holds a signal exactly when `sigfillset` yields it, that is when
the C library does not keep it for itself, and it is not the restart signal;
the mask the handler blocks and unblocks around the acknowledgement holds the
restart signal alone. -/
theorem restart_wait_protocol (p : Platform) (rt : Runtime) :
    (∀ (g : Globals) (f : Frame),
      restart_signal_handler g f
        = { status := Status.returned,
            frame := { f with current := { f.current with signal := g.restart_signal_num } },
            trace := [Event.mono_thread_info_current] })
    ∧ (∀ (g : Globals) (wakes : List Wake) (c : MonoThreadInfo),
      restart_wait g wakes c = restart_wait g wakes { c with signal := 0 })
    ∧ (∀ (g : Globals) (wakes : List Wake) (c cE : MonoThreadInfo) (waits : List Event),
      restart_wait g wakes c = (Status.returned, cE, waits) ↔
        ∃ (pre : List Wake) (w : Wake) (post : List Wake) (cP : MonoThreadInfo),
          wakes = pre ++ w :: post ∧ NonRestartRun g pre c cP
          ∧ w { cP with signal := 0 } = (Status.returned, cE)
          ∧ cE.signal = g.restart_signal_num
          ∧ waits
            = List.replicate (pre.length + 1) (Event.sigsuspend g.suspend_signal_mask))
    ∧ (∀ (g : Globals) (wakes : List Wake) (c cP : MonoThreadInfo),
      NonRestartRun g wakes c cP →
      restart_wait g wakes c
        = (Status.blocked, { cP with signal := 0 },
            List.replicate (wakes.length + 1) (Event.sigsuspend g.suspend_signal_mask)))
    ∧ (∀ (tbl : Int → Sigaction) (b : SigSet) (g1 g2 : Globals) (ops : List Op),
      mono_threads_suspend_init_signals p (Globals.startup tbl b) = .ok g1 →
      run_ops p g1 ops = .ok g2 →
      g2.restart_signal_num ≠ 0
      ∧ g2.suspend_signal_mask = sigdelset (sigfillset p) g2.restart_signal_num
      ∧ (∀ n : Int, sigismember g2.suspend_signal_mask n = true
          ↔ (sigismember (sigfillset p) n = true ∧ n ≠ g2.restart_signal_num))
      ∧ (∀ n : Int, sigismember (sigfillset p) n = true ↔ n ∉ p.libc_reserved)
      ∧ (∀ n : Int,
          sigismember g2.suspend_ack_signal_mask n = true ↔ n = g2.restart_signal_num)
      ∧ ∀ (wakes : List Wake) (f : Frame),
          ∀ e ∈ (suspend_signal_handler rt g2 wakes f).trace,
            (∀ m, e = Event.sigsuspend m → m = g2.suspend_signal_mask)
            ∧ (∀ m, e = Event.pthread_sigmask_block m → m = g2.suspend_ack_signal_mask)
            ∧ (∀ m, e = Event.pthread_sigmask_unblock m →
                m = g2.suspend_ack_signal_mask)) := by
  refine ⟨fun g f => rfl, restart_wait_clears, restart_wait_returned_iff,
    restart_wait_blocked, ?_⟩
  intro tbl b g1 g2 ops hinit hops
  have hpos := restart_number_positive p tbl b g1 hinit
  have hi := installed_after_init p tbl b g1 hinit
  obtain ⟨g3, h3, _, _, e2, _⟩ := installed_run_ops p tbl ops g1 hi
  rw [hops] at h3
  injection h3 with h3
  subst h3
  obtain ⟨m1, m2⟩ := masks_after_ops p ops g1 g2 (masks_after_init p _ g1 hinit) hops
  refine ⟨by omega, m1, ?_, ?_, ?_, fun wakes f => suspend_handler_masks rt g2 wakes f⟩
  · intro n
    rw [m1]
    exact wait_mask_members p _ n
  · intro n
    simp [sigismember, sigfillset]
  · intro n
    rw [m2]
    exact ack_mask_members _ n

/-- C11, witness: on Linux, after the initialisation with every disposition
default, the restart signal number is not zero, the wait mask is the set of
`sigfillset` without the restart signal and the acknowledgement mask is the
restart signal alone; a wake-up that touches nothing followed by the restart
handler ends the loop at the second wake-up, after two waits. -/
theorem restart_wait_protocol_witness :
    (installed_linux.restart_signal_num ≠ 0
      ∧ installed_linux.suspend_signal_mask
          = sigdelset (sigfillset linux) installed_linux.restart_signal_num
      ∧ (∀ n : Int, sigismember installed_linux.suspend_ack_signal_mask n = true
          ↔ n = installed_linux.restart_signal_num))
    ∧ restart_wait installed_linux [spurious_wake, restart_wake installed_linux] idle_thread
        = (Status.returned, { idle_thread with signal := installed_linux.restart_signal_num },
            List.replicate 2 (Event.sigsuspend installed_linux.suspend_signal_mask)) :=
  have h5 := (restart_wait_protocol linux plain_runtime).2.2.2.2 all_default sigemptyset
    installed_linux installed_linux [] rfl rfl
  ⟨⟨h5.1, h5.2.1, h5.2.2.2.2.1⟩,
    ((restart_wait_protocol linux plain_runtime).2.2.1 installed_linux
      [spurious_wake, restart_wake installed_linux] idle_thread
      { idle_thread with signal := installed_linux.restart_signal_num }
      (List.replicate 2 (Event.sigsuspend installed_linux.suspend_signal_mask))).2
      ⟨[spurious_wake], restart_wake installed_linux, [], idle_thread, rfl,
        ⟨idle_thread, rfl, by decide, rfl⟩, rfl, rfl, rfl⟩⟩

end MonoPosixSignals
